import Mathlib

/-!
Verification development for the GitHub-repository exploration assistant
(`worker/tools.ts`, `worker/index.ts`, `worker/utils.ts`).

JavaScript strings are modelled as `List Char` (`Str`).  Machine integers of
the source are all non-negative counts and timestamps, modelled as `Nat`
(timestamps in seconds).  Fallible operations return `Option`; thrown
exceptions are explicit outcome constructors.
-/

set_option maxRecDepth 4000
set_option autoImplicit false

abbrev Str := List Char

/-- JavaScript `\s` character class, as used by the source's regexes. -/
def isSpaceJS (c : Char) : Bool :=
  c == ' ' || c == '\t' || c == '\n' || c == '\r' || c == '\x0b' || c == '\x0c' ||
  c == '\u00A0' || c == '\u1680' || ('\u2000' ≤ c && c ≤ '\u200A') ||
  c == '\u2028' || c == '\u2029' || c == '\u202F' || c == '\u205F' ||
  c == '\u3000' || c == '\uFEFF'

/-- Drop a literal pattern from the front of a string: `some rest` when the
pattern is a prefix, `none` otherwise. -/
def dropLit : Str → Str → Option Str
  | [], s => some s
  | _, [] => none
  | p :: ps, c :: cs => if p == c then dropLit ps cs else none

/-- Substring test (JavaScript `String.prototype.includes` / an unanchored
regex literal). -/
def containsSub (pat : Str) : Str → Bool
  | [] => pat.isPrefixOf ([] : Str)
  | c :: t => pat.isPrefixOf (c :: t) || containsSub pat t

/-- Suffix test (JavaScript regex `pat$`). -/
def endsWithL (suf : Str) (s : Str) : Bool :=
  suf.reverse.isPrefixOf s.reverse

/-!
## `parseGitHubUrl` (worker/tools.ts, lines 3–10)

The source matches the unanchored regex
`/(?:https?:\/\/)?github\.com\/([^\/]+)\/([^\/\s?#]+)/` against the input,
throws `"Invalid GitHub repository URL"` when there is no match, and strips a
trailing `.git` from the second capture.  The regex engine's leftmost-match
search is embedded explicitly below; throwing is modelled as `none`.
-/

/-- Character admitted by the second capture group `[^\/\s?#]+`. -/
def repoNameChar (c : Char) : Bool :=
  !(c == '/' || c == '?' || c == '#' || isSpaceJS c)

/-- Match `([^\/]+)\/([^\/\s?#]+)` at the start of `s` (both groups greedy;
no backtracking is possible since the classes exclude `/`). -/
def matchRepoPart (s : Str) : Option (Str × Str) :=
  if (s.takeWhile (fun c => c != '/')).isEmpty then none else
  match s.dropWhile (fun c => c != '/') with
  | '/' :: rest2 =>
    if (rest2.takeWhile repoNameChar).isEmpty then none
    else some (s.takeWhile (fun c => c != '/'), rest2.takeWhile repoNameChar)
  | _ => none

/-- Match `github\.com\/` then the capture groups, at the start of `s`. -/
def matchAfterHost (s : Str) : Option (Str × Str) :=
  match dropLit ("github.com/".toList) s with
  | some r => matchRepoPart r
  | none => none

/-- Match the optional protocol `https?:\/\/` at the start of `s`
(`s?` greedy: `https://` is tried before `http://`). -/
def matchProto (s : Str) : Option Str :=
  match dropLit ("https://".toList) s with
  | some r => some r
  | none => dropLit ("http://".toList) s

/-- Try the whole regex at the start of `s`; when the optional protocol group
matched but the rest fails, the group backtracks to consuming nothing. -/
def matchAt1 (s : Str) : Option (Str × Str) :=
  match matchProto s with
  | some r => (matchAfterHost r).orElse (fun _ => matchAfterHost s)
  | none => matchAfterHost s

/-- Leftmost-match search of the regex over the input. -/
def searchGithub : Str → Option (Str × Str)
  | [] => none
  | c :: t => (matchAt1 (c :: t)).orElse (fun _ => searchGithub t)

/-- JavaScript `replace(/\.git$/, '')` on the captured repository name. -/
def stripDotGit (s : Str) : Str :=
  if endsWithL (".git".toList) s then (s.reverse.drop 4).reverse else s

/-- `parseGitHubUrl` from worker/tools.ts; `none` models the thrown
`"Invalid GitHub repository URL"` error. -/
def parseGitHubUrl (url : Str) : Option (Str × Str) :=
  match searchGithub url with
  | some (owner, name) => some (owner, stripDotGit name)
  | none => none

example : parseGitHubUrl ("https://github.com/kernelism/cf_ai_github_assistant".toList) =
    some ("kernelism".toList, "cf_ai_github_assistant".toList) := by decide

example : parseGitHubUrl ("github.com/a/b.git".toList) = some ("a".toList, "b".toList) := by decide

example : parseGitHubUrl ("http://github.com/a/b/".toList) = some ("a".toList, "b".toList) := by decide

example : parseGitHubUrl ("kernelism/cf_ai_github_assistant".toList) = none := by decide

example : parseGitHubUrl ("see github.com/a/b now".toList) = some ("a".toList, "b".toList) := by decide

/-! ### Supporting lemmas for `parseGitHubUrl` -/

theorem isEmpty_false_of_ne {l : Str} (h : l ≠ []) : l.isEmpty = false := by
  cases l with
  | nil => exact absurd rfl h
  | cons a t => rfl

theorem dropLit_self (p : Str) : ∀ s : Str, dropLit p (p ++ s) = some s := by
  induction p with
  | nil => intro s; simp [dropLit]
  | cons a t ih => intro s; simp [dropLit, ih]

theorem dropLit_some (p : Str) : ∀ s r : Str, dropLit p s = some r → s = p ++ r := by
  induction p with
  | nil =>
    intro s r h
    simp only [dropLit, Option.some.injEq] at h
    simp [h]
  | cons a t ih =>
    intro s r h
    cases s with
    | nil => exact absurd h (by simp [dropLit])
    | cons c cs =>
      by_cases hac : (a == c) = true
      · have hcs := ih cs r (by simpa [dropLit, hac] using h)
        have hac' : a = c := by simpa using hac
        simp [← hac', hcs]
      · exact absurd h (by simp [dropLit, hac])

theorem takeWhile_all {p : Char → Bool} (xs : Str) (h : ∀ c ∈ xs, p c = true) :
    xs.takeWhile p = xs := by
  induction xs with
  | nil => rfl
  | cons x t ih =>
    have hx : p x = true := h x (by simp)
    simp only [List.takeWhile_cons, hx, if_true]
    rw [ih (fun c hc => h c (by simp [hc]))]

theorem takeWhile_append_all {p : Char → Bool} (xs ys : Str) (h : ∀ c ∈ xs, p c = true) :
    (xs ++ ys).takeWhile p = xs ++ ys.takeWhile p := by
  induction xs with
  | nil => simp
  | cons x t ih =>
    have hx : p x = true := h x (by simp)
    simp only [List.cons_append, List.takeWhile_cons, hx, if_true]
    rw [ih (fun c hc => h c (by simp [hc]))]

theorem dropWhile_append_all {p : Char → Bool} (xs ys : Str) (h : ∀ c ∈ xs, p c = true) :
    (xs ++ ys).dropWhile p = ys.dropWhile p := by
  induction xs with
  | nil => simp
  | cons x t ih =>
    have hx : p x = true := h x (by simp)
    simp only [List.cons_append, List.dropWhile_cons, hx, if_true]
    exact ih (fun c hc => h c (by simp [hc]))

theorem matchRepoPart_eq (owner rest : Str) (ho : owner ≠ [])
    (hoc : ∀ c ∈ owner, (c != '/') = true) :
    matchRepoPart (owner ++ '/' :: rest) =
      (if (rest.takeWhile repoNameChar).isEmpty then none
       else some (owner, rest.takeWhile repoNameChar)) := by
  unfold matchRepoPart
  rw [takeWhile_append_all owner ('/' :: rest) hoc,
      dropWhile_append_all owner ('/' :: rest) hoc,
      show (('/' :: rest).takeWhile fun c => c != '/') = [] from rfl,
      show (('/' :: rest).dropWhile fun c => c != '/') = '/' :: rest from rfl,
      List.append_nil, isEmpty_false_of_ne ho]
  simp

theorem matchAfterHost_full (rest : Str) :
    matchAfterHost ("github.com/".toList ++ rest) = matchRepoPart rest := by
  unfold matchAfterHost
  rw [dropLit_self]

theorem matchAt1_proto_some (s r : Str) (hp : matchProto s = some r) :
    matchAt1 s = (matchAfterHost r).orElse (fun _ => matchAfterHost s) := by
  unfold matchAt1
  rw [hp]

theorem matchAt1_proto_none (s : Str) (hp : matchProto s = none) :
    matchAt1 s = matchAfterHost s := by
  unfold matchAt1
  rw [hp]

theorem matchAt1_pre (pre tail : Str)
    (hpre : pre ∈ [([] : Str), "http://".toList, "https://".toList]) :
    matchAt1 (pre ++ ("github.com/".toList ++ tail)) = matchRepoPart tail := by
  have hpre' : pre = [] ∨ pre = "http://".toList ∨ pre = "https://".toList := by
    simpa using hpre
  rcases hpre' with rfl | rfl | rfl
  · rw [List.nil_append,
        matchAt1_proto_none _ (show matchProto ("github.com/".toList ++ tail) = none from rfl)]
    exact matchAfterHost_full tail
  · rw [matchAt1_proto_some _ ("github.com/".toList ++ tail)
        (show matchProto ("http://".toList ++ ("github.com/".toList ++ tail)) =
          some ("github.com/".toList ++ tail) from rfl),
        matchAfterHost_full]
    cases hm : matchRepoPart tail with
    | some v => rfl
    | none =>
      show matchAfterHost ("http://".toList ++ ("github.com/".toList ++ tail)) = none
      rfl
  · rw [matchAt1_proto_some _ ("github.com/".toList ++ tail)
        (show matchProto ("https://".toList ++ ("github.com/".toList ++ tail)) =
          some ("github.com/".toList ++ tail) from rfl),
        matchAfterHost_full]
    cases hm : matchRepoPart tail with
    | some v => rfl
    | none =>
      show matchAfterHost ("https://".toList ++ ("github.com/".toList ++ tail)) = none
      rfl

theorem matchAt1_nil : matchAt1 ([] : Str) = none := rfl

theorem searchGithub_of_matchAt1 (s : Str) (v : Str × Str) (h : matchAt1 s = some v) :
    searchGithub s = some v := by
  cases s with
  | nil => rw [matchAt1_nil] at h; cases h
  | cons c t =>
    unfold searchGithub
    rw [h]
    rfl

theorem stripDotGit_append_git (name : Str) :
    stripDotGit (name ++ ".git".toList) = name := by
  unfold stripDotGit
  have he : endsWithL (".git".toList) (name ++ ".git".toList) = true := by
    unfold endsWithL
    rw [List.reverse_append, show (".git".toList).reverse = ['t', 'i', 'g', '.'] from rfl]
    exact List.isPrefixOf_iff_prefix.mpr (List.prefix_append _ _)
  rw [if_pos he, List.reverse_append,
      show (".git".toList).reverse = ['t', 'i', 'g', '.'] from rfl,
      show (['t', 'i', 'g', '.'] ++ name.reverse).drop 4 = name.reverse from
        List.drop_left ['t', 'i', 'g', '.'] name.reverse]
  exact List.reverse_reverse name

theorem stripDotGit_of_not (name : Str) (h : endsWithL (".git".toList) name = false) :
    stripDotGit name = name := by
  unfold stripDotGit
  rw [h]
  rfl

theorem matchAfterHost_some (s : Str) (v : Str × Str) (h : matchAfterHost s = some v) :
    ("github.com/".toList).isPrefixOf s = true := by
  unfold matchAfterHost at h
  cases hd : dropLit ("github.com/".toList) s with
  | none => rw [hd] at h; cases h
  | some r =>
    rw [dropLit_some ("github.com/".toList) s r hd]
    exact List.isPrefixOf_iff_prefix.mpr (List.prefix_append _ _)

theorem containsSub_of_isPrefixOf (pat s : Str) (h : pat.isPrefixOf s = true) :
    containsSub pat s = true := by
  cases s with
  | nil => simpa [containsSub] using h
  | cons c t =>
    unfold containsSub
    rw [h, Bool.true_or]

theorem containsSub_append_left (pat l s : Str) (h : containsSub pat s = true) :
    containsSub pat (l ++ s) = true := by
  induction l with
  | nil => simpa using h
  | cons c t ih =>
    show containsSub pat (c :: (t ++ s)) = true
    unfold containsSub
    rw [ih, Bool.or_true]

theorem matchAt1_contains (s : Str) (v : Str × Str) (h : matchAt1 s = some v) :
    containsSub ("github.com/".toList) s = true := by
  cases hp : matchProto s with
  | none =>
    rw [matchAt1_proto_none s hp] at h
    exact containsSub_of_isPrefixOf _ _ (matchAfterHost_some s v h)
  | some r =>
    rw [matchAt1_proto_some s r hp] at h
    have hsplit : ∃ p : Str, s = p ++ r := by
      unfold matchProto at hp
      cases hd : dropLit ("https://".toList) s with
      | some r' =>
        rw [hd] at hp
        cases hp
        exact ⟨"https://".toList, dropLit_some _ _ _ hd⟩
      | none =>
        rw [hd] at hp
        exact ⟨"http://".toList, dropLit_some _ _ _ hp⟩
    cases hr : matchAfterHost r with
    | some w =>
      obtain ⟨p, rfl⟩ := hsplit
      exact containsSub_append_left _ p r
        (containsSub_of_isPrefixOf _ _ (matchAfterHost_some r w hr))
    | none =>
      rw [hr] at h
      simp only [Option.orElse] at h
      exact containsSub_of_isPrefixOf _ _ (matchAfterHost_some s v h)

theorem searchGithub_contains (s : Str) (v : Str × Str) (h : searchGithub s = some v) :
    containsSub ("github.com/".toList) s = true := by
  induction s with
  | nil => exact absurd h (by simp [searchGithub])
  | cons c t ih =>
    unfold searchGithub at h
    cases hm : matchAt1 (c :: t) with
    | some w => exact matchAt1_contains _ _ hm
    | none =>
      rw [hm] at h
      simp only [Option.orElse] at h
      have hct := ih h
      show containsSub ("github.com/".toList) (c :: t) = true
      unfold containsSub
      rw [hct, Bool.or_true]

theorem parseGitHubUrl_none_of_not_contains (s : Str)
    (h : containsSub ("github.com/".toList) s = false) : parseGitHubUrl s = none := by
  unfold parseGitHubUrl
  cases hs : searchGithub s with
  | none => rfl
  | some v =>
    have hc := searchGithub_contains s v hs
    rw [hc] at h
    cases h

theorem parseGitHubUrl_accepts (pre suf owner name : Str)
    (hpre : pre ∈ [([] : Str), "http://".toList, "https://".toList])
    (hsuf : suf ∈ [([] : Str), "/".toList, ".git".toList, ".git/".toList])
    (ho : owner ≠ [])
    (hoc : ∀ c ∈ owner, (c != '/') = true)
    (hn : name ≠ [])
    (hnc : ∀ c ∈ name, repoNameChar c = true)
    (hg : endsWithL (".git".toList) name = false) :
    parseGitHubUrl (pre ++ ("github.com/".toList ++ (owner ++ '/' :: (name ++ suf)))) =
      some (owner, name) := by
  have hsuf' : suf = [] ∨ suf = "/".toList ∨ suf = ".git".toList ∨ suf = ".git/".toList := by
    simpa using hsuf
  have hgitchars : ∀ c ∈ ".git".toList, repoNameChar c = true := by decide
  have hRaw : ∃ R : Str, (name ++ suf).takeWhile repoNameChar = R ∧
      stripDotGit R = name ∧ R ≠ [] := by
    rcases hsuf' with rfl | rfl | rfl | rfl
    · refine ⟨name, ?_, stripDotGit_of_not name hg, hn⟩
      rw [List.append_nil]
      exact takeWhile_all name hnc
    · refine ⟨name, ?_, stripDotGit_of_not name hg, hn⟩
      rw [takeWhile_append_all name _ hnc,
          show ("/".toList).takeWhile repoNameChar = [] from rfl, List.append_nil]
    · refine ⟨name ++ ".git".toList, ?_, stripDotGit_append_git name, ?_⟩
      · rw [takeWhile_append_all name _ hnc,
            show (".git".toList).takeWhile repoNameChar = ".git".toList from rfl]
      · intro hcon
        exact absurd (List.append_eq_nil.mp hcon).2 (by decide)
    · refine ⟨name ++ ".git".toList, ?_, stripDotGit_append_git name, ?_⟩
      · rw [show (".git/".toList : Str) = ".git".toList ++ "/".toList from rfl,
            ← List.append_assoc,
            takeWhile_append_all (name ++ ".git".toList) _ ?_,
            show ("/".toList).takeWhile repoNameChar = [] from rfl, List.append_nil]
        intro c hc
        rcases List.mem_append.mp hc with hc1 | hc2
        · exact hnc c hc1
        · exact hgitchars c hc2
      · intro hcon
        exact absurd (List.append_eq_nil.mp hcon).2 (by decide)
  obtain ⟨R, htw, hstrip, hRne⟩ := hRaw
  have hmr : matchRepoPart (owner ++ '/' :: (name ++ suf)) = some (owner, R) := by
    rw [matchRepoPart_eq owner _ ho hoc, htw, isEmpty_false_of_ne hRne]
    simp
  have hm1 : matchAt1 (pre ++ ("github.com/".toList ++ (owner ++ '/' :: (name ++ suf)))) =
      some (owner, R) := by
    rw [matchAt1_pre pre _ hpre]
    exact hmr
  unfold parseGitHubUrl
  rw [searchGithub_of_matchAt1 _ _ hm1]
  show some (owner, stripDotGit R) = some (owner, name)
  rw [hstrip]

/-- C1, counterexample: the claim asserts that a bare `owner/name` identifier
parses to `(owner, name)`, but `parseGitHubUrl` (whose regex requires a
`github.com/` segment) rejects the bare form with the invalid-identifier
error. -/
theorem C1_counterexample :
    parseGitHubUrl ("kernelism/cf_ai_github_assistant".toList) = none := by decide

/-- C1 (amended): for every identifier containing the `github.com/owner/name`
pattern — with optional `http://` or `https://` protocol and optional trailing
`.git`, `/`, or `.git/` — parsing yields the `(owner, name)` pair, uniformly
across those forms; and every string with no `github.com/` occurrence at all
fails with the invalid-identifier error.  (Contrary to the claim, a bare
`owner/name` is NOT accepted, and the match may occur anywhere inside the
string, not only at its start.) -/
theorem C1_amended (pre suf owner name : Str)
    (hpre : pre ∈ [([] : Str), "http://".toList, "https://".toList])
    (hsuf : suf ∈ [([] : Str), "/".toList, ".git".toList, ".git/".toList])
    (ho : owner ≠ [])
    (hoc : ∀ c ∈ owner, (c != '/') = true)
    (hn : name ≠ [])
    (hnc : ∀ c ∈ name, repoNameChar c = true)
    (hg : endsWithL (".git".toList) name = false) :
    parseGitHubUrl (pre ++ ("github.com/".toList ++ (owner ++ '/' :: (name ++ suf)))) =
      some (owner, name) ∧
    ∀ s : Str, containsSub ("github.com/".toList) s = false → parseGitHubUrl s = none :=
  ⟨parseGitHubUrl_accepts pre suf owner name hpre hsuf ho hoc hn hnc hg,
   fun s hs => parseGitHubUrl_none_of_not_contains s hs⟩

/-- C1, witness: the amended theorem applied at a concrete URL of the accepted
form and at a concrete string with no `github.com/` occurrence. -/
theorem C1_amended_witness :
    parseGitHubUrl ("https://github.com/kernelism/cf_ai_github_assistant.git".toList) =
      some ("kernelism".toList, "cf_ai_github_assistant".toList) ∧
    parseGitHubUrl ("kernelism/cf_ai_github_assistant".toList) = none := by
  have h := C1_amended ("https://".toList) (".git".toList)
    ("kernelism".toList) ("cf_ai_github_assistant".toList)
    (by decide) (by decide) (by decide) (by decide) (by decide) (by decide) (by decide)
  have e : ("https://".toList ++ ("github.com/".toList ++ ("kernelism".toList ++
      '/' :: ("cf_ai_github_assistant".toList ++ ".git".toList)))) =
      "https://github.com/kernelism/cf_ai_github_assistant.git".toList := by decide
  rw [e] at h
  exact ⟨h.1, h.2 _ (by decide)⟩

/-!
## Data model (worker/utils.ts) and the snapshot builder (worker/tools.ts)

`indexRepository` issues seven parallel fetches and assembles a `RepoIndex`
record.  The network layer is outside the repository; its seven results are
passed in as a `FetchData` record (a `none` component models the
corresponding fetch returning `null`/failing, which the source absorbs).
`indexedAt` (an ISO timestamp string in the source) is modelled as seconds
since the epoch.
-/

inductive FKind where
  | file
  | dir
deriving DecidableEq, Repr

structure FileNode where
  path : Str
  type : FKind
  size : Option Nat
deriving DecidableEq, Repr

structure IssueInfo where
  number : Nat
  title : Str
  body : Option Str
  state : Str
  labels : List Str
  author : Str
  createdAt : Str
  commentsCount : Nat
  url : Str
deriving DecidableEq, Repr

structure PRInfo where
  number : Nat
  title : Str
  body : Option Str
  state : Str
  author : Str
  createdAt : Str
  url : Str
  draft : Bool
deriving DecidableEq, Repr

structure RepoIndex where
  name : Str
  fullName : Str
  description : Option Str
  htmlUrl : Str
  defaultBranch : Str
  language : Option Str
  topics : List Str
  stars : Nat
  forks : Nat
  openIssuesCount : Nat
  readme : Option Str
  contributing : Option Str
  fileTree : List FileNode
  issues : List IssueInfo
  pullRequests : List PRInfo
  indexedAt : Nat
  languages : List (Str × Nat)
deriving DecidableEq, Repr

/-- Raw repository metadata as returned by the metadata fetch
(`topics` may be absent in the payload: the source applies `|| []`). -/
structure RepoMetadata where
  name : Str
  full_name : Str
  description : Option Str
  html_url : Str
  default_branch : Str
  language : Option Str
  topics : Option (List Str)
  stargazers_count : Nat
  forks : Nat
  open_issues_count : Nat
deriving DecidableEq, Repr

/-- Raw issue item from the issue-listing endpoint; `isPullRequest` models
the presence of the `pull_request` field. -/
structure RawIssue where
  number : Nat
  title : Str
  body : Option Str
  state : Str
  labels : List Str
  author : Str
  createdAt : Str
  commentsCount : Nat
  url : Str
  isPullRequest : Bool
deriving DecidableEq, Repr

structure RawPR where
  number : Nat
  title : Str
  body : Option Str
  state : Str
  author : Str
  createdAt : Str
  url : Str
  draft : Bool
deriving DecidableEq, Repr

/-- Joined results of the seven concurrent sub-fetches of `indexRepository`. -/
structure FetchData where
  metadata : Option RepoMetadata
  readme : Option Str
  contributing : Option Str
  fileTree : List FileNode
  issuesData : Option (List RawIssue)
  prData : Option (List RawPR)
  languages : List (Str × Nat)
deriving DecidableEq, Repr

/-- `truncateText` from worker/tools.ts (lines 162–165): truncation appends a
three-character `'...'` ellipsis. -/
def truncateText (text : Str) (maxLength : Nat) : Str :=
  if text.length ≤ maxLength then text else text.take maxLength ++ "...".toList

/-- JavaScript conditional `s ? truncateText(s, n) : null`: both `null` and
the empty string are falsy. -/
def condTrunc (s : Option Str) (n : Nat) : Option Str :=
  match s with
  | some t => if t.isEmpty then none else some (truncateText t n)
  | none => none

/-- Issue mapping inside `fetchIssues` (worker/tools.ts, lines 114–126). -/
def mkIssue (i : RawIssue) : IssueInfo :=
  { number := i.number, title := i.title, body := condTrunc i.body 500,
    state := i.state, labels := i.labels, author := i.author,
    createdAt := i.createdAt, commentsCount := i.commentsCount, url := i.url }

/-- `fetchIssues` post-processing: a failed fetch yields `[]`; pull requests
sharing the endpoint are filtered out; bodies are truncated to 500. -/
def fetchIssuesPure (data : Option (List RawIssue)) : List IssueInfo :=
  match data with
  | none => []
  | some l => (l.filter (fun i => !i.isPullRequest)).map mkIssue

/-- PR mapping inside `fetchPullRequests` (worker/tools.ts, lines 144–153). -/
def mkPR (pr : RawPR) : PRInfo :=
  { number := pr.number, title := pr.title, body := condTrunc pr.body 300,
    state := pr.state, author := pr.author, createdAt := pr.createdAt,
    url := pr.url, draft := pr.draft }

def fetchPullRequestsPure (data : Option (List RawPR)) : List PRInfo :=
  match data with
  | none => []
  | some l => l.map mkPR

/-- Outcome of `indexRepository`: the identifier-parse failure throws, a
failed metadata fetch returns `null`, otherwise the assembled snapshot. -/
inductive BuildResult where
  | thrown
  | failed
  | built (idx : RepoIndex)
deriving DecidableEq, Repr

/-- `indexRepository` from worker/tools.ts (lines 167–208), as a function of
the joined fetch results. -/
def indexRepository (url : Str) (d : FetchData) (now : Nat) : BuildResult :=
  match parseGitHubUrl url with
  | none => BuildResult.thrown
  | some _ =>
    match d.metadata with
    | none => BuildResult.failed
    | some m =>
      BuildResult.built
        { name := m.name, fullName := m.full_name, description := m.description,
          htmlUrl := m.html_url, defaultBranch := m.default_branch,
          language := m.language, topics := m.topics.getD [],
          stars := m.stargazers_count, forks := m.forks,
          openIssuesCount := m.open_issues_count,
          readme := condTrunc d.readme 8000,
          contributing := condTrunc d.contributing 3000,
          fileTree := d.fileTree,
          issues := fetchIssuesPure d.issuesData,
          pullRequests := fetchPullRequestsPure d.prData,
          indexedAt := now, languages := d.languages }

/-- One-line issue-body excerpt used by `formatIssue` (worker/tools.ts, line
334): truncate to 150 then flatten newlines to spaces. -/
def issueExcerpt (b : Str) : Str :=
  (truncateText b 150).map (fun c => if c == '\n' then ' ' else c)

theorem truncateText_length (s : Str) (n : Nat) :
    (truncateText s n).length = if s.length ≤ n then s.length else n + 3 := by
  unfold truncateText
  by_cases h : s.length ≤ n
  · rw [if_pos h, if_pos h]
  · rw [if_neg h, if_neg h, List.length_append, List.length_take,
        Nat.min_eq_left (Nat.le_of_lt (Nat.lt_of_not_le h))]
    rfl

theorem truncateText_length_le (s : Str) (n : Nat) :
    (truncateText s n).length ≤ n + 3 := by
  rw [truncateText_length]
  by_cases h : s.length ≤ n
  · rw [if_pos h]; exact Nat.le_trans h (Nat.le_add_right n 3)
  · rw [if_neg h]

theorem condTrunc_length (s : Option Str) (n : Nat) (r : Str)
    (h : condTrunc s n = some r) : r.length ≤ n + 3 := by
  cases s with
  | none => cases h
  | some t =>
    have h' : (if t.isEmpty then none else some (truncateText t n)) = some r := h
    by_cases ht : t.isEmpty = true
    · rw [if_pos ht] at h'; cases h'
    · rw [if_neg ht] at h'
      cases h'
      exact truncateText_length_le t n

/-- Sample metadata record used by concrete witnesses. -/
def sampleMeta : RepoMetadata :=
  { name := "cf_ai_github_assistant".toList,
    full_name := "kernelism/cf_ai_github_assistant".toList,
    description := some "demo".toList,
    html_url := "https://github.com/kernelism/cf_ai_github_assistant".toList,
    default_branch := "main".toList,
    language := some "TypeScript".toList,
    topics := some ["ai".toList],
    stargazers_count := 100, forks := 3, open_issues_count := 3 }

def sampleUrl : Str := "https://github.com/kernelism/cf_ai_github_assistant".toList

/-- C2, counterexample: a fetched README of 8001 characters is stored with
length 8003 (truncation to 8000 plus the appended `'...'`), which exceeds the
claimed bound of 8000. -/
theorem C2_counterexample :
    (match indexRepository sampleUrl
        { metadata := some sampleMeta, readme := some (List.replicate 8001 'a'),
          contributing := none, fileTree := [], issuesData := none,
          prData := none, languages := [] } 0 with
      | BuildResult.built idx => idx.readme.map List.length
      | _ => none) = some 8003 ∧ ¬ (8003 ≤ 8000) := by
  constructor
  · have hparse : parseGitHubUrl sampleUrl =
        some ("kernelism".toList, "cf_ai_github_assistant".toList) := by decide
    unfold indexRepository
    rw [hparse]
    have hne : (List.replicate 8001 'a') ≠ [] := by
      intro h
      have hl := congrArg List.length h
      rw [List.length_replicate, List.length_nil] at hl
      exact absurd hl (by decide)
    show ((if (List.replicate 8001 'a').isEmpty then none
        else some (truncateText (List.replicate 8001 'a') 8000)).map List.length) = some 8003
    rw [isEmpty_false_of_ne hne]
    show some ((truncateText (List.replicate 8001 'a') 8000).length) = some 8003
    rw [truncateText_length, List.length_replicate, if_neg (by decide)]
  · decide

theorem indexRepository_built (url : Str) (d : FetchData) (now : Nat) (idx : RepoIndex)
    (h : indexRepository url d now = BuildResult.built idx) :
    ∃ m, d.metadata = some m ∧
      idx.readme = condTrunc d.readme 8000 ∧
      idx.contributing = condTrunc d.contributing 3000 ∧
      idx.issues = fetchIssuesPure d.issuesData ∧
      idx.pullRequests = fetchPullRequestsPure d.prData ∧
      idx.indexedAt = now := by
  unfold indexRepository at h
  split at h
  · cases h
  · split at h
    · cases h
    · rename_i m hm
      cases h
      exact ⟨m, hm, rfl, rfl, rfl, rfl, rfl⟩

/-- C2 (amended): ingestion truncation bounds stored texts by the limit plus
the three-character `'...'` ellipsis: README ≤ 8003, contributing ≤ 3003,
issue bodies ≤ 503, and the one-line body excerpt rendered into the
assembled context ≤ 153 (not 8000/3000/500/150 as claimed). -/
theorem C2_amended (url : Str) (d : FetchData) (now : Nat) (idx : RepoIndex)
    (h : indexRepository url d now = BuildResult.built idx) :
    (∀ r, idx.readme = some r → r.length ≤ 8003) ∧
    (∀ cg, idx.contributing = some cg → cg.length ≤ 3003) ∧
    (∀ i ∈ idx.issues, ∀ b, i.body = some b → b.length ≤ 503) ∧
    (∀ b : Str, (issueExcerpt b).length ≤ 153) := by
  obtain ⟨m, hm, hr, hc, hi, hp, hn⟩ := indexRepository_built url d now idx h
  refine ⟨?_, ?_, ?_, ?_⟩
  · intro r hsome
    rw [hr] at hsome
    exact condTrunc_length _ _ _ hsome
  · intro cg hsome
    rw [hc] at hsome
    exact condTrunc_length _ _ _ hsome
  · intro i hmem b hsome
    rw [hi] at hmem
    unfold fetchIssuesPure at hmem
    rcases hd : d.issuesData with _ | l
    · rw [hd] at hmem
      exact absurd hmem (by intro hx; cases hx)
    · rw [hd] at hmem
      have hmem' : i ∈ List.map mkIssue (l.filter (fun j => !j.isPullRequest)) := hmem
      obtain ⟨raw, _, rfl⟩ := List.mem_map.mp hmem'
      have hb : condTrunc raw.body 500 = some b := hsome
      exact condTrunc_length _ _ _ hb
  · intro b
    unfold issueExcerpt
    rw [List.length_map]
    exact truncateText_length_le b 150

def sampleRawIssue : RawIssue :=
  { number := 1, title := "t".toList,
    body := some (List.replicate 600 'b'), state := "open".toList,
    labels := [], author := "u".toList, createdAt := "2024".toList,
    commentsCount := 0, url := "https://example".toList,
    isPullRequest := false }

/-- C2, witness: the amended bound theorem applied to a concrete snapshot
built from a 600-character issue body, whose stored body has length 503. -/
theorem C2_amended_witness :
    ∃ idx : RepoIndex,
      indexRepository sampleUrl
        { metadata := some sampleMeta, readme := none, contributing := none,
          fileTree := [],
          issuesData := some [sampleRawIssue],
          prData := none, languages := [] } 0 = BuildResult.built idx ∧
      ∀ i ∈ idx.issues, ∀ b, i.body = some b → b.length ≤ 503 := by
  have hparse : parseGitHubUrl sampleUrl =
      some ("kernelism".toList, "cf_ai_github_assistant".toList) := by decide
  have hstep : ∃ idx : RepoIndex,
      indexRepository sampleUrl
        { metadata := some sampleMeta, readme := none, contributing := none,
          fileTree := [],
          issuesData := some [sampleRawIssue],
          prData := none, languages := [] } 0 = BuildResult.built idx := by
    unfold indexRepository
    rw [hparse]
    exact ⟨_, rfl⟩
  obtain ⟨idx, hidx⟩ := hstep
  exact ⟨idx, hidx, fun i hmem b hb => (C2_amended _ _ _ _ hidx).2.2.1 i hmem b hb⟩

/-!
## Context assembler (`buildContext`, worker/tools.ts lines 224–327)

`buildContext` pushes section strings into an array in a fixed order and
joins them with `'\n'`.  The pushes are reproduced below in source order as a
single list expression; the named `spec…Part` definitions that follow restate
the spec's section decomposition and are proved equal to it.
-/

/-- Decimal rendering of a count (JavaScript number-to-string in a template
literal). -/
def strN (n : Nat) : Str := (Nat.repr n).toList

/-- JavaScript `a || 'default'` on an optional string (null and `""` falsy). -/
def jsOr (s : Option Str) (dflt : Str) : Str :=
  match s with
  | some t => if t.isEmpty then dflt else t
  | none => dflt

def lowerStr (s : Str) : Str := s.map Char.toLower

/-- `Array.from(new Set(...))`: deduplicate keeping first occurrences. -/
def dedupAux (seen : List Str) : List Str → List Str
  | [] => []
  | x :: xs => if seen.contains x then dedupAux seen xs else x :: dedupAux (x :: seen) xs

def dedupFirst (l : List Str) : List Str := dedupAux [] l

/-- `path.split('/')[0]`. -/
def firstSeg (s : Str) : Str := s.takeWhile (fun c => c != '/')

/-- `path.split('/').pop()`. -/
def lastSeg (s : Str) : Str := (s.reverse.takeWhile (fun c => c != '/')).reverse

/-- `path.split('.').pop() || ''`. -/
def extOf (s : Str) : Str := (s.reverse.takeWhile (fun c => c != '.')).reverse

/-- `isImportantFile` from worker/tools.ts (lines 339–351), one disjunct per
regex of `importantPatterns`. -/
def isImportantFile (path : Str) : Bool :=
  ("readme".toList).isPrefixOf (lowerStr path) ||
  ("contributing".toList).isPrefixOf (lowerStr path) ||
  ("changelog".toList).isPrefixOf (lowerStr path) ||
  ("license".toList).isPrefixOf (lowerStr path) ||
  endsWithL ("package.json".toList) path ||
  endsWithL ("tsconfig.json".toList) path ||
  endsWithL (".config.js".toList) path ||
  endsWithL (".config.ts".toList) path ||
  endsWithL (".config.mjs".toList) path ||
  (["src/index.ts", "src/index.js", "src/index.tsx", "src/index.jsx",
    "src/main.ts", "src/main.js", "src/main.tsx", "src/main.jsx",
    "src/app.ts", "src/app.js", "src/app.tsx", "src/app.jsx",
    "index.ts", "index.js", "index.tsx", "index.jsx",
    "main.ts", "main.js", "main.py", "main.go", "main.rs",
    "app.ts", "app.js", "app.py", ".env.example"].any (fun l => path == l.toList)) ||
  endsWithL ("requirements.txt".toList) path ||
  endsWithL ("pyproject.toml".toList) path ||
  endsWithL ("Cargo.toml".toList) path ||
  endsWithL ("go.mod".toList) path ||
  endsWithL ("Makefile".toList) path ||
  endsWithL ("Dockerfile".toList) path ||
  containsSub (".github/workflows/".toList) path

/-- `formatIssue` from worker/tools.ts (lines 329–337). -/
def formatIssue (issue : IssueInfo) : Str :=
  ("- [#".toList ++ strN issue.number ++ "](".toList ++ issue.url ++ ") ".toList ++
    issue.title ++
    (if issue.labels.length > 0 then
      " [".toList ++ List.intercalate (", ".toList) issue.labels ++ "]".toList else []) ++
    (if issue.commentsCount > 0 then
      " (".toList ++ strN issue.commentsCount ++ " comments)".toList else [])) ++
  (match issue.body with
   | some b => if b.isEmpty then [] else "\n  > ".toList ++ issueExcerpt b
   | none => [])

/-- `Object.values(index.languages).reduce((a, b) => a + b, 0)`. -/
def totalLangBytes (languages : List (Str × Nat)) : Nat :=
  (languages.map (fun p => p.2)).foldl (· + ·) 0

/-- Stable insertion for `sort((a, b) => b[1] - a[1])` (descending by byte
count; JavaScript `Array.prototype.sort` is stable). -/
def insertByBytes (x : Str × Nat) : List (Str × Nat) → List (Str × Nat)
  | [] => [x]
  | y :: ys => if x.2 ≥ y.2 then x :: y :: ys else y :: insertByBytes x ys

def sortByBytesDesc : List (Str × Nat) → List (Str × Nat)
  | [] => []
  | x :: xs => insertByBytes x (sortByBytesDesc xs)

/-- `Math.round(bytes / totalBytes * 100)`, modelled as exact rational
rounding (round half up); only evaluated under the guard `totalBytes > 0`. -/
def pct (bytes total : Nat) : Nat := (200 * bytes + total) / (2 * total)

/-- The rendered `**Languages:**` breakdown body: top 5 by byte share. -/
def langBreakdown (languages : List (Str × Nat)) (totalBytes : Nat) : Str :=
  List.intercalate (", ".toList)
    (((sortByBytesDesc languages).take 5).map
      (fun lb => lb.1 ++ " (".toList ++ strN (pct lb.2 totalBytes) ++ "%)".toList))

/-- Important files shown in the File Structure section. -/
def importantFilesOf (index : RepoIndex) : List Str :=
  (((index.fileTree.filter (fun f => f.type == FKind.file)).filter
      (fun f => isImportantFile f.path)).take 30).map (fun f => f.path)

/-- Deduplicated top-level directory names. -/
def topDirsOf (index : RepoIndex) : List Str :=
  dedupFirst ((index.fileTree.filter (fun f => f.type == FKind.dir)).map
    (fun f => firstSeg f.path))

def goodFirstIssuesOf (index : RepoIndex) : List IssueInfo :=
  index.issues.filter (fun i => i.labels.any (fun l =>
    containsSub ("good first".toList) (lowerStr l) ||
    containsSub ("beginner".toList) (lowerStr l)))

def helpWantedIssuesOf (index : RepoIndex) : List IssueInfo :=
  index.issues.filter (fun i => i.labels.any (fun l =>
    containsSub ("help wanted".toList) (lowerStr l)))

/-- A pull-request line of the Open Pull Requests section. -/
def prLine (pr : PRInfo) : Str :=
  "- [#".toList ++ strN pr.number ++ "](".toList ++ pr.url ++ ") ".toList ++
  pr.title ++ " by @".toList ++ pr.author ++
  (if pr.draft then " (draft)".toList else [])

/-- The two lines pushed when no file contents were fetched. -/
def noFilesNote : List Str :=
  ["\n## Note: No file contents loaded".toList,
   "To see actual code, the user should ask about specific files. Do NOT make up code.".toList]

/-- The four lines of a fetched file's File Contents block. -/
def fileBlock (pc : Str × Str) : List Str :=
  ["\n### ".toList ++ pc.1, "```".toList ++ extOf pc.1, pc.2, "```".toList]

/-- The section strings pushed by `buildContext`, in source push order. -/
def buildContextSections (index : RepoIndex) (additionalFiles : Option (List (Str × Str))) :
    List Str :=
  ["## Repository: ".toList ++ index.fullName,
   "**Description:** ".toList ++ jsOr index.description ("No description".toList),
   "**Primary Language:** ".toList ++ jsOr index.language ("Unknown".toList),
   "**Stars:** ".toList ++ strN index.stars ++ " | **Forks:** ".toList ++ strN index.forks ++
     " | **Open Issues:** ".toList ++ strN index.openIssuesCount] ++
  (if index.topics.length > 0 then
    ["**Topics:** ".toList ++ List.intercalate (", ".toList) index.topics] else []) ++
  (if totalLangBytes index.languages > 0 then
    ["**Languages:** ".toList ++
      langBreakdown index.languages (totalLangBytes index.languages)] else []) ++
  ["\n## File Structure".toList] ++
  (if (importantFilesOf index).length > 0 then
    ["Key files:\n".toList ++
      List.intercalate ("\n".toList) ((importantFilesOf index).map ("- ".toList ++ ·))] else []) ++
  (if (topDirsOf index).length > 0 then
    ["\nTop-level directories: ".toList ++
      List.intercalate (", ".toList) ((topDirsOf index).take 15)] else []) ++
  (match index.readme with
   | some r => if r.isEmpty then [] else
      ["\n## README (excerpt)".toList, truncateText r 2000]
   | none => []) ++
  (match index.contributing with
   | some cg => if cg.isEmpty then [] else
      ["\n## Contributing Guidelines (excerpt)".toList, truncateText cg 1000]
   | none => []) ++
  (if index.issues.length > 0 then
    ["\n## Open Issues".toList,
     "(IMPORTANT: When mentioning ANY issue, use the markdown link format shown below with the exact URL)".toList] ++
    (if (goodFirstIssuesOf index).length > 0 then
      "\n### Good First Issues".toList ::
        ((goodFirstIssuesOf index).take 5).map formatIssue else []) ++
    (if (helpWantedIssuesOf index).length > 0 then
      "\n### Help Wanted".toList ::
        ((helpWantedIssuesOf index).take 5).map formatIssue else []) ++
    ("\n### Recent Issues".toList :: (index.issues.take 10).map formatIssue)
   else []) ++
  (if index.pullRequests.length > 0 then
    ["\n## Open Pull Requests".toList,
     "(Use these exact URLs when linking to PRs)".toList] ++
    (index.pullRequests.take 5).map prLine
   else []) ++
  (match additionalFiles with
   | some fs =>
     if fs.length > 0 then
       "\n## File Contents (ACTUAL CODE - you may quote this)".toList ::
         fs.flatMap fileBlock
     else noFilesNote
   | none => noFilesNote)

/-- `buildContext`: the pushed sections joined with `'\n'`. -/
def buildContext (index : RepoIndex) (additionalFiles : Option (List (Str × Str))) : Str :=
  List.intercalate ("\n".toList) (buildContextSections index additionalFiles)

/-!
### Spec-side section decomposition

The `spec…Part` definitions follow the spec's description of the assembled
context: one part per section, in the spec's fixed order.  They are compared
with `buildContextSections` in the claim theorems.
-/

def specHeaderPart (index : RepoIndex) : List Str :=
  ["## Repository: ".toList ++ index.fullName,
   "**Description:** ".toList ++ jsOr index.description ("No description".toList),
   "**Primary Language:** ".toList ++ jsOr index.language ("Unknown".toList),
   "**Stars:** ".toList ++ strN index.stars ++ " | **Forks:** ".toList ++ strN index.forks ++
     " | **Open Issues:** ".toList ++ strN index.openIssuesCount]

def specTopicsPart (index : RepoIndex) : List Str :=
  if index.topics.length > 0 then
    ["**Topics:** ".toList ++ List.intercalate (", ".toList) index.topics] else []

def specLangPart (index : RepoIndex) : List Str :=
  if totalLangBytes index.languages > 0 then
    ["**Languages:** ".toList ++
      langBreakdown index.languages (totalLangBytes index.languages)] else []

def specFileStructPart (index : RepoIndex) : List Str :=
  ["\n## File Structure".toList] ++
  (if (importantFilesOf index).length > 0 then
    ["Key files:\n".toList ++
      List.intercalate ("\n".toList) ((importantFilesOf index).map ("- ".toList ++ ·))] else []) ++
  (if (topDirsOf index).length > 0 then
    ["\nTop-level directories: ".toList ++
      List.intercalate (", ".toList) ((topDirsOf index).take 15)] else [])

def specReadmePart (index : RepoIndex) : List Str :=
  match index.readme with
  | some r => if r.isEmpty then [] else
      ["\n## README (excerpt)".toList, truncateText r 2000]
  | none => []

def specContribPart (index : RepoIndex) : List Str :=
  match index.contributing with
  | some cg => if cg.isEmpty then [] else
      ["\n## Contributing Guidelines (excerpt)".toList, truncateText cg 1000]
  | none => []

def specIssuesPart (index : RepoIndex) : List Str :=
  if index.issues.length > 0 then
    ["\n## Open Issues".toList,
     "(IMPORTANT: When mentioning ANY issue, use the markdown link format shown below with the exact URL)".toList] ++
    (if (goodFirstIssuesOf index).length > 0 then
      "\n### Good First Issues".toList ::
        ((goodFirstIssuesOf index).take 5).map formatIssue else []) ++
    (if (helpWantedIssuesOf index).length > 0 then
      "\n### Help Wanted".toList ::
        ((helpWantedIssuesOf index).take 5).map formatIssue else []) ++
    ("\n### Recent Issues".toList :: (index.issues.take 10).map formatIssue)
  else []

def specPRPart (index : RepoIndex) : List Str :=
  if index.pullRequests.length > 0 then
    ["\n## Open Pull Requests".toList,
     "(Use these exact URLs when linking to PRs)".toList] ++
    (index.pullRequests.take 5).map prLine
  else []

def specFilesPart (additionalFiles : Option (List (Str × Str))) : List Str :=
  match additionalFiles with
  | some fs =>
    if fs.length > 0 then
      "\n## File Contents (ACTUAL CODE - you may quote this)".toList ::
        fs.flatMap fileBlock
    else noFilesNote
  | none => noFilesNote

/-- JavaScript falsiness of an optional string (`null` or `""`). -/
def optFalsy (s : Option Str) : Bool :=
  match s with
  | some t => t.isEmpty
  | none => true

theorem buildContextSections_decomp (index : RepoIndex)
    (additionalFiles : Option (List (Str × Str))) :
    buildContextSections index additionalFiles =
      specHeaderPart index ++ specTopicsPart index ++ specLangPart index ++
      specFileStructPart index ++ specReadmePart index ++ specContribPart index ++
      specIssuesPart index ++ specPRPart index ++ specFilesPart additionalFiles := by
  unfold buildContextSections specHeaderPart specTopicsPart specLangPart
    specFileStructPart specReadmePart specContribPart specIssuesPart specPRPart specFilesPart
  simp only [List.append_assoc, List.cons_append, List.nil_append]

/-- Snapshot with empty file tree, issues, PRs, topics, texts, and an
all-zero language mapping, used by concrete counterexamples and witnesses. -/
def sampleEmptyIdx : RepoIndex :=
  { name := "n".toList, fullName := "o/n".toList, description := none,
    htmlUrl := "u".toList, defaultBranch := "main".toList, language := none,
    topics := [], stars := 0, forks := 0, openIssuesCount := 0,
    readme := none, contributing := none, fileTree := [], issues := [],
    pullRequests := [], indexedAt := 0, languages := [("C".toList, 0)] }

/-- C3, counterexample: on a snapshot with an empty file tree, the assembled
context still contains the `## File Structure` header — the claim that every
section with empty underlying data is omitted entirely is false. -/
theorem C3_counterexample :
    sampleEmptyIdx.fileTree = [] ∧
    ("\n## File Structure".toList) ∈ buildContextSections sampleEmptyIdx none := by
  constructor
  · rfl
  · decide

/-- C3 (amended): the assembled context is the fixed-order concatenation
header, topics, language breakdown, file structure, README excerpt,
contributing excerpt, issues, pull requests, file contents/note; every
section except File Structure is omitted entirely exactly when its underlying
data is empty (topics, issues, PRs empty; README/contributing absent or
empty; language byte total zero), while the `## File Structure` header is
emitted unconditionally — even when the file tree is empty — and the final
part is always either file contents or the explicit no-file-contents note. -/
theorem C3_amended (index : RepoIndex) (additionalFiles : Option (List (Str × Str))) :
    buildContextSections index additionalFiles =
      specHeaderPart index ++ specTopicsPart index ++ specLangPart index ++
      specFileStructPart index ++ specReadmePart index ++ specContribPart index ++
      specIssuesPart index ++ specPRPart index ++ specFilesPart additionalFiles ∧
    (specTopicsPart index = [] ↔ index.topics = []) ∧
    (specLangPart index = [] ↔ totalLangBytes index.languages = 0) ∧
    (specReadmePart index = [] ↔ optFalsy index.readme = true) ∧
    (specContribPart index = [] ↔ optFalsy index.contributing = true) ∧
    (specIssuesPart index = [] ↔ index.issues = []) ∧
    (specPRPart index = [] ↔ index.pullRequests = []) ∧
    specFileStructPart index ≠ [] ∧
    specFilesPart additionalFiles ≠ [] := by
  refine ⟨buildContextSections_decomp index additionalFiles, ?_, ?_, ?_, ?_, ?_, ?_, ?_, ?_⟩
  · unfold specTopicsPart
    by_cases h : index.topics.length > 0
    · rw [if_pos h]
      constructor
      · intro hx; exact absurd hx (by simp)
      · intro ht; rw [ht] at h; exact absurd h (by simp)
    · rw [if_neg h]
      have ht : index.topics = [] :=
        List.length_eq_zero.mp (Nat.le_zero.mp (Nat.not_lt.mp h))
      simp [ht]
  · unfold specLangPart
    by_cases h : totalLangBytes index.languages > 0
    · rw [if_pos h]
      constructor
      · intro hx; exact absurd hx (by simp)
      · intro ht; rw [ht] at h; exact absurd h (by simp)
    · rw [if_neg h]
      have ht : totalLangBytes index.languages = 0 := Nat.le_zero.mp (Nat.not_lt.mp h)
      simp [ht]
  · unfold specReadmePart optFalsy
    cases index.readme with
    | none => exact iff_of_true rfl rfl
    | some r =>
      show (if r.isEmpty then ([] : List Str)
          else ["\n## README (excerpt)".toList, truncateText r 2000]) = [] ↔
        r.isEmpty = true
      by_cases hr : r.isEmpty = true
      · rw [if_pos hr]; simp [hr]
      · rw [if_neg hr]; simp [hr]
  · unfold specContribPart optFalsy
    cases index.contributing with
    | none => exact iff_of_true rfl rfl
    | some cg =>
      show (if cg.isEmpty then ([] : List Str)
          else ["\n## Contributing Guidelines (excerpt)".toList, truncateText cg 1000]) = [] ↔
        cg.isEmpty = true
      by_cases hc : cg.isEmpty = true
      · rw [if_pos hc]; simp [hc]
      · rw [if_neg hc]; simp [hc]
  · unfold specIssuesPart
    by_cases h : index.issues.length > 0
    · rw [if_pos h]
      constructor
      · intro hx; exact absurd hx (by simp)
      · intro ht; rw [ht] at h; exact absurd h (by simp)
    · rw [if_neg h]
      have ht : index.issues = [] :=
        List.length_eq_zero.mp (Nat.le_zero.mp (Nat.not_lt.mp h))
      simp [ht]
  · unfold specPRPart
    by_cases h : index.pullRequests.length > 0
    · rw [if_pos h]
      constructor
      · intro hx; exact absurd hx (by simp)
      · intro ht; rw [ht] at h; exact absurd h (by simp)
    · rw [if_neg h]
      have ht : index.pullRequests = [] :=
        List.length_eq_zero.mp (Nat.le_zero.mp (Nat.not_lt.mp h))
      simp [ht]
  · unfold specFileStructPart
    simp
  · unfold specFilesPart
    cases additionalFiles with
    | none => unfold noFilesNote; simp
    | some fs =>
      show (if fs.length > 0 then
          "\n## File Contents (ACTUAL CODE - you may quote this)".toList ::
            fs.flatMap fileBlock
        else noFilesNote) ≠ []
      by_cases h : fs.length > 0
      · rw [if_pos h]; simp
      · rw [if_neg h]; unfold noFilesNote; simp

theorem totalLangBytes_zero_of_all {languages : List (Str × Nat)}
    (h : ∀ p ∈ languages, p.2 = 0) : totalLangBytes languages = 0 := by
  unfold totalLangBytes
  have hgen : ∀ acc : Nat, ((languages.map (fun p => p.2)).foldl (· + ·) acc) = acc := by
    induction languages with
    | nil => intro acc; rfl
    | cons x t ih =>
      intro acc
      have hx : x.2 = 0 := h x (by simp)
      show ((t.map (fun p => p.2)).foldl (· + ·) (acc + x.2)) = acc
      rw [hx, Nat.add_zero]
      exact ih (fun p hp => h p (by simp [hp])) acc
  exact hgen 0

/-- C10 (confirmed): context assembly is total by construction; a snapshot
whose language-byte mapping is empty or all-zero renders no `**Languages:**`
line (its section part is empty and the assembled sections are just the
remaining parts), and whenever the Languages line is rendered the summed
total — the divisor of every percentage computation — is strictly
positive. -/
theorem C10_languages_guard (index : RepoIndex)
    (additionalFiles : Option (List (Str × Str))) :
    ((∀ p ∈ index.languages, p.2 = 0) →
      specLangPart index = [] ∧
      buildContextSections index additionalFiles =
        specHeaderPart index ++ specTopicsPart index ++
        specFileStructPart index ++ specReadmePart index ++ specContribPart index ++
        specIssuesPart index ++ specPRPart index ++ specFilesPart additionalFiles) ∧
    (specLangPart index ≠ [] → 0 < totalLangBytes index.languages) := by
  constructor
  · intro h
    have hz : totalLangBytes index.languages = 0 := totalLangBytes_zero_of_all h
    have hpart : specLangPart index = [] := by
      unfold specLangPart
      rw [hz]
      simp
    refine ⟨hpart, ?_⟩
    rw [buildContextSections_decomp index additionalFiles, hpart]
    simp only [List.append_nil, List.nil_append]
  · intro h
    by_cases hz : totalLangBytes index.languages > 0
    · exact hz
    · exact absurd (by
        unfold specLangPart
        rw [if_neg hz]) h

/-- C10, witness: the guard theorem applied to the concrete snapshot with the
all-zero language mapping `[("C", 0)]`. -/
theorem C10_languages_guard_witness : specLangPart sampleEmptyIdx = [] :=
  ((C10_languages_guard sampleEmptyIdx none).1 (by decide)).1

/-!
## Router response parsing (`parseQueryAnalysis`, worker/tools.ts lines 353–364)

The source strips markdown code fences, runs `JSON.parse`, and reads
`needsFiles` (JavaScript truthiness) and `files` (must be an array) from the
result; every failure — malformed JSON, or the member access throwing on a
parsed `null` — is caught and yields `{needsFiles: false, files: []}`.
`JSON.parse` is embedded as a fuel-bounded recursive-descent parser (the fuel
is generous; exhausting it models a parse failure).
-/

inductive Json where
  | null
  | bool (b : Bool)
  | num (tok : Str)
  | str (s : Str)
  | arr (elts : List Json)
  | obj (fields : List (Str × Json))

def isJsonWs (c : Char) : Bool := c == ' ' || c == '\t' || c == '\n' || c == '\r'

def skipWs (s : Str) : Str := s.dropWhile isJsonWs

def isDigit (c : Char) : Bool := '0' ≤ c && c ≤ '9'

def hexVal (c : Char) : Option Nat :=
  if '0' ≤ c && c ≤ '9' then some (c.toNat - 48)
  else if 'a' ≤ c && c ≤ 'f' then some (c.toNat - 87)
  else if 'A' ≤ c && c ≤ 'F' then some (c.toNat - 55)
  else none

def escChar (e : Char) : Option Char :=
  if e == '"' then some '"'
  else if e == '\\' then some '\\'
  else if e == '/' then some '/'
  else if e == 'b' then some '\x08'
  else if e == 'f' then some '\x0c'
  else if e == 'n' then some '\n'
  else if e == 'r' then some '\r'
  else if e == 't' then some '\t'
  else none

/-- JSON string body after the opening quote; control characters below 0x20
must be escaped.  (A `\uXXXX` in the surrogate range maps to the null
character here, where a JavaScript string would hold a lone surrogate — no
claim depends on that corner.) -/
def parseStringBody : Str → Option (Str × Str)
  | [] => none
  | c :: r =>
    if c == '"' then some ([], r)
    else if c == '\\' then
      match r with
      | [] => none
      | e :: r2 =>
        if e == 'u' then
          match r2 with
          | h1 :: h2 :: h3 :: h4 :: r3 =>
            match hexVal h1, hexVal h2, hexVal h3, hexVal h4 with
            | some a, some b, some c4, some d4 =>
              (parseStringBody r3).map
                (fun p => (Char.ofNat (a * 4096 + b * 256 + c4 * 16 + d4) :: p.1, p.2))
            | _, _, _, _ => none
          | _ => none
        else
          match escChar e with
          | some ch => (parseStringBody r2).map (fun p => (ch :: p.1, p.2))
          | none => none
    else if c.toNat < 32 then none
    else (parseStringBody r).map (fun p => (c :: p.1, p.2))

def parseIntPart : Str → Option (Str × Str)
  | [] => none
  | c :: r =>
    if c == '0' then some (['0'], r)
    else if isDigit c then some (c :: r.takeWhile isDigit, r.dropWhile isDigit)
    else none

def parseFracPart : Str → Option (Str × Str)
  | '.' :: r =>
    if (r.takeWhile isDigit).isEmpty then none
    else some ('.' :: r.takeWhile isDigit, r.dropWhile isDigit)
  | s => some ([], s)

def parseExpPart : Str → Option (Str × Str)
  | [] => some ([], [])
  | c :: r =>
    if c == 'e' || c == 'E' then
      match r with
      | [] => none
      | sgn :: r2 =>
        if sgn == '+' || sgn == '-' then
          if (r2.takeWhile isDigit).isEmpty then none
          else some (c :: sgn :: r2.takeWhile isDigit, r2.dropWhile isDigit)
        else
          if (r.takeWhile isDigit).isEmpty then none
          else some (c :: r.takeWhile isDigit, r.dropWhile isDigit)
    else some ([], c :: r)

def parseNumber (s : Str) : Option (Str × Str) :=
  match (match s with
         | '-' :: r => (['-'], r)
         | _ => (([] : Str), s)) with
  | (neg, s1) =>
    match parseIntPart s1 with
    | none => none
    | some (ip, s2) =>
      match parseFracPart s2 with
      | none => none
      | some (fp, s3) =>
        match parseExpPart s3 with
        | none => none
        | some (ep, s4) => some (neg ++ ip ++ fp ++ ep, s4)

mutual

def parseValue : Nat → Str → Option (Json × Str)
  | 0, _ => none
  | fuel + 1, s =>
    match skipWs s with
    | [] => none
    | c :: r =>
      if c == 'n' then
        match r with
        | 'u' :: 'l' :: 'l' :: r2 => some (Json.null, r2)
        | _ => none
      else if c == 't' then
        match r with
        | 'r' :: 'u' :: 'e' :: r2 => some (Json.bool true, r2)
        | _ => none
      else if c == 'f' then
        match r with
        | 'a' :: 'l' :: 's' :: 'e' :: r2 => some (Json.bool false, r2)
        | _ => none
      else if c == '"' then
        (parseStringBody r).map (fun p => (Json.str p.1, p.2))
      else if c == '[' then
        parseArrayRest fuel r
      else if c == '{' then
        parseObjRest fuel r
      else
        (parseNumber (c :: r)).map (fun p => (Json.num p.1, p.2))

def parseArrayRest : Nat → Str → Option (Json × Str)
  | 0, _ => none
  | fuel + 1, s =>
    match skipWs s with
    | ']' :: r => some (Json.arr [], r)
    | _ => (parseElems fuel s).map (fun p => (Json.arr p.1, p.2))

def parseElems : Nat → Str → Option (List Json × Str)
  | 0, _ => none
  | fuel + 1, s =>
    match parseValue fuel s with
    | none => none
    | some (v, r) =>
      match skipWs r with
      | ',' :: r2 => (parseElems fuel r2).map (fun p => (v :: p.1, p.2))
      | ']' :: r2 => some ([v], r2)
      | _ => none

def parseObjRest : Nat → Str → Option (Json × Str)
  | 0, _ => none
  | fuel + 1, s =>
    match skipWs s with
    | '}' :: r => some (Json.obj [], r)
    | _ => (parseMembers fuel s).map (fun p => (Json.obj p.1, p.2))

def parseMembers : Nat → Str → Option (List (Str × Json) × Str)
  | 0, _ => none
  | fuel + 1, s =>
    match skipWs s with
    | '"' :: r =>
      match parseStringBody r with
      | none => none
      | some (key, r2) =>
        match skipWs r2 with
        | ':' :: r3 =>
          match parseValue fuel r3 with
          | none => none
          | some (v, r4) =>
            match skipWs r4 with
            | ',' :: r5 => (parseMembers fuel r5).map (fun p => ((key, v) :: p.1, p.2))
            | '}' :: r5 => some ([(key, v)], r5)
            | _ => none
        | _ => none
    | _ => none

end

/-- `JSON.parse`: parse one value, then only whitespace may remain.  The fuel
bound is generous for every input the flow can see; fuel exhaustion models a
parse failure. -/
def jsonParse (s : Str) : Option Json :=
  match parseValue (10 * s.length + 10) s with
  | some (v, rest) => if (skipWs rest).isEmpty then some v else none
  | none => none

example : jsonParse ("\x7b\"needsFiles\": true, \"files\": [\"a.ts\"]\x7d".toList) =
    some (Json.obj [("needsFiles".toList, Json.bool true),
      ("files".toList, Json.arr [Json.str ("a.ts".toList)])]) := rfl

example : jsonParse ("not json".toList) = none := rfl

example : jsonParse (" null ".toList) = some Json.null := rfl

/-- Case-insensitive literal prefix drop (for the `i` regex flag). -/
def dropLitCI : Str → Str → Option Str
  | [], s => some s
  | _, [] => none
  | p :: ps, c :: cs => if Char.toLower p == Char.toLower c then dropLitCI ps cs else none

/-- `response.replace(/```json\s*/gi, '')`: remove every occurrence of the
fence marker and the whitespace run after it, scanning left to right.  The
fuel is one more than the length, enough since every step consumes at least
one character. -/
def stripJsonFencesAux : Nat → Str → Str
  | 0, _ => []
  | _ + 1, [] => []
  | fuel + 1, c :: t =>
    match dropLitCI ("```json".toList) (c :: t) with
    | some r => stripJsonFencesAux fuel (r.dropWhile isSpaceJS)
    | none => c :: stripJsonFencesAux fuel t

def stripJsonFences (s : Str) : Str := stripJsonFencesAux (s.length + 1) s

/-- `.replace(/```\s*/g, '')`: the second, case-sensitive fence removal. -/
def stripFencesAux : Nat → Str → Str
  | 0, _ => []
  | _ + 1, [] => []
  | fuel + 1, c :: t =>
    match dropLit ("```".toList) (c :: t) with
    | some r => stripFencesAux fuel (r.dropWhile isSpaceJS)
    | none => c :: stripFencesAux fuel t

def stripFences (s : Str) : Str := stripFencesAux (s.length + 1) s

/-- JavaScript `String.prototype.trim`. -/
def trimJS (s : Str) : Str :=
  ((s.dropWhile isSpaceJS).reverse.dropWhile isSpaceJS).reverse

/-- The cleaning pipeline applied to the model's routing response before
`JSON.parse`. -/
def cleanResponse (response : Str) : Str :=
  trimJS (stripFences (stripJsonFences response))

/-- JavaScript member access `parsed.key` on a parsed JSON value: defined on
objects (the last duplicate key wins), `undefined` (`none`) elsewhere. -/
def jGet (j : Json) (key : Str) : Option Json :=
  match j with
  | Json.obj fields => ((fields.filter (fun kv => kv.1 == key)).getLast?).map (fun kv => kv.2)
  | _ => none

/-- A JSON number token denotes zero iff every mantissa digit is `0`
(exponents cannot make a non-zero mantissa zero; double underflow is not
modelled). -/
def numTokIsZero (tok : Str) : Bool :=
  ((tok.takeWhile (fun c => !(c == 'e' || c == 'E'))).filter isDigit).all (fun c => c == '0')

/-- JavaScript `Boolean(v)` on a JSON value or `undefined`. -/
def truthyJ (v : Option Json) : Bool :=
  match v with
  | none => false
  | some Json.null => false
  | some (Json.bool b) => b
  | some (Json.num tok) => !(numTokIsZero tok)
  | some (Json.str s) => !s.isEmpty
  | some (Json.arr _) => true
  | some (Json.obj _) => true

structure QueryDecision where
  needsFiles : Bool
  files : List Json

/-- `parseQueryAnalysis` from worker/tools.ts (lines 353–364): any parse
failure — including the member access throwing on a parsed `null` — falls
back to `{needsFiles: false, files: []}`; a non-array `files` member becomes
`[]`. -/
def parseQueryAnalysis (response : Str) : QueryDecision :=
  match jsonParse (cleanResponse response) with
  | none => ⟨false, []⟩
  | some Json.null => ⟨false, []⟩
  | some j =>
    { needsFiles := truthyJ (jGet j ("needsFiles".toList)),
      files := match jGet j ("files".toList) with
               | some (Json.arr xs) => xs
               | _ => [] }

example : (parseQueryAnalysis ("```json\n\x7b\"needsFiles\": true, \"files\": [\"a.ts\"]\x7d\n```".toList)).needsFiles = true := rfl

example : parseQueryAnalysis ("garbage".toList) = ⟨false, []⟩ := rfl

example : parseQueryAnalysis ("null".toList) = ⟨false, []⟩ := rfl

example : (parseQueryAnalysis ("\x7b\"needsFiles\": 1, \"files\": \"x\"\x7d".toList)) =
    ⟨true, []⟩ := rfl

/-!
## Query router (`analyzeQuery`, worker/index.ts lines 260–324)

The regex tiers are embedded as decidable pattern functions over the
lower-cased question (all patterns carry the `i` flag or are case-free).
`.` in a JavaScript regex without the `s` flag excludes line terminators.
-/

def isDotChar (c : Char) : Bool :=
  !(c == '\n' || c == '\r' || c == '\u2028' || c == '\u2029')

/-- `.*lit` at the start of `s` (any split point works, so greediness is
irrelevant to the boolean result). -/
def scanLitDot (lit : Str) : Str → Bool
  | [] => lit.isPrefixOf ([] : Str)
  | c :: t => lit.isPrefixOf (c :: t) || (isDotChar c && scanLitDot lit t)

/-- `.+lit` at the start of `s`. -/
def dotPlusLit (lit : Str) : Str → Bool
  | [] => false
  | c :: t => isDotChar c && scanLitDot lit t

/-- Unanchored search for `pre` followed by a continuation pattern. -/
def searchPreThen (pre : Str) (k : Str → Bool) : Str → Bool
  | [] => (match dropLit pre [] with | some r => k r | none => false)
  | c :: t =>
    (match dropLit pre (c :: t) with | some r => k r | none => false) ||
    searchPreThen pre k t

/-- `.*(k₁|k₂|…)` at the start of `s`. -/
def dotStarKeys (keys : List Str) : Str → Bool
  | [] => keys.any (fun kk => kk.isPrefixOf ([] : Str))
  | c :: t => keys.any (fun kk => kk.isPrefixOf (c :: t)) || (isDotChar c && dotStarKeys keys t)

/-- The `issueOnlyPatterns` tier (worker/index.ts lines 263–269):
`/^(find|list|show).*(issue|bug|pr|pull request)/i`, `/good first issue/i`,
`/help wanted/i`, `/how (do i|can i|to) contribute/i`,
`/contribution guide/i`. -/
def issueOnlyMatch (question : Str) : Bool :=
  (["find".toList, "list".toList, "show".toList].any (fun w =>
    match dropLit w (lowerStr question) with
    | some r => dotStarKeys ["issue".toList, "bug".toList, "pr".toList,
        "pull request".toList] r
    | none => false)) ||
  containsSub ("good first issue".toList) (lowerStr question) ||
  containsSub ("help wanted".toList) (lowerStr question) ||
  containsSub ("how do i contribute".toList) (lowerStr question) ||
  containsSub ("how can i contribute".toList) (lowerStr question) ||
  containsSub ("how to contribute".toList) (lowerStr question) ||
  containsSub ("contribution guide".toList) (lowerStr question)

/-- The `needsCodePatterns` tier (worker/index.ts lines 275–290). -/
def needsCodeMatch (question : Str) : Bool :=
  containsSub ("architect".toList) (lowerStr question) ||
  containsSub ("structure".toList) (lowerStr question) ||
  searchPreThen ("how does ".toList) (dotPlusLit (" work".toList)) (lowerStr question) ||
  containsSub ("explain".toList) (lowerStr question) ||
  containsSub ("code".toList) (lowerStr question) ||
  containsSub ("implementation".toList) (lowerStr question) ||
  containsSub ("where is".toList) (lowerStr question) ||
  containsSub ("show me".toList) (lowerStr question) ||
  searchPreThen ("what does ".toList) (dotPlusLit (" do".toList)) (lowerStr question) ||
  containsSub ("entry point".toList) (lowerStr question) ||
  containsSub ("main file".toList) (lowerStr question) ||
  containsSub ("config".toList) (lowerStr question) ||
  containsSub ("setup".toList) (lowerStr question) ||
  containsSub ("snippet".toList) (lowerStr question)

/-- The candidate file paths placed in the router prompt:
`fileTree.filter(file).map(path).slice(0, 100)`. -/
def candidateFiles (index : RepoIndex) : List Str :=
  ((index.fileTree.filter (fun f => f.type == FKind.file)).map (fun f => f.path)).take 100

/-- Outcome of one model call: extracted response text, or a thrown
transport error. -/
inductive ModelResult where
  | ok (text : Str)
  | err

/-- `analyzeQuery`: pattern tiers first; the model is consulted only in the
ambiguous middle, and its outcome (including a thrown call, caught by the
source) is the `ModelResult` argument. -/
def analyzeQuery (question : Str) (index : RepoIndex) (modelResponse : ModelResult) :
    QueryDecision :=
  if issueOnlyMatch question then ⟨false, []⟩
  else if !needsCodeMatch question then ⟨false, []⟩
  else
    match modelResponse with
    | ModelResult.err => ⟨false, []⟩
    | ModelResult.ok t => parseQueryAnalysis t

/-- Whether `analyzeQuery` reaches the model call (`env.AI.run`). -/
def analyzeCallsModel (question : Str) : Bool :=
  !issueOnlyMatch question && needsCodeMatch question

example : issueOnlyMatch ("What are good first issues?".toList) = true := rfl

example : issueOnlyMatch ("List the open PRs".toList) = true := rfl

example : needsCodeMatch ("How does the component rendering work?".toList) = true := rfl

example : analyzeCallsModel ("How does the component rendering work?".toList) = true := rfl

example : analyzeCallsModel ("hello there".toList) = false := rfl

/-- C5 (confirmed): routing follows the two-tier precedence — an issue/PR/
contribution-intent match (e.g. "good first issue") yields `needsFiles =
false` with no files and no model call; with no needs-code signal likewise;
the model call happens only when a needs-code pattern matched and no
issue-intent pattern did (any non-trivial decision implies that), and the
prompt's candidate list holds at most 100 file paths, all drawn from the
snapshot's file tree. -/
theorem C5_router (question : Str) (index : RepoIndex) (mr : ModelResult) :
    (issueOnlyMatch question = true →
      analyzeQuery question index mr = ⟨false, []⟩ ∧ analyzeCallsModel question = false) ∧
    (issueOnlyMatch question = false → needsCodeMatch question = false →
      analyzeQuery question index mr = ⟨false, []⟩ ∧ analyzeCallsModel question = false) ∧
    (analyzeCallsModel question = false →
      analyzeQuery question index mr = analyzeQuery question index ModelResult.err) ∧
    (analyzeQuery question index mr ≠ ⟨false, []⟩ →
      issueOnlyMatch question = false ∧ needsCodeMatch question = true) ∧
    (candidateFiles index).length ≤ 100 ∧
    (∀ p ∈ candidateFiles index, ∃ f ∈ index.fileTree, f.type = FKind.file ∧ f.path = p) ∧
    issueOnlyMatch ("What are good first issues?".toList) = true := by
  refine ⟨?_, ?_, ?_, ?_, ?_, ?_, rfl⟩
  · intro h
    unfold analyzeQuery analyzeCallsModel
    rw [h]
    exact ⟨if_pos rfl, rfl⟩
  · intro h1 h2
    unfold analyzeQuery analyzeCallsModel
    rw [h1, h2]
    exact ⟨rfl, rfl⟩
  · intro h
    unfold analyzeCallsModel at h
    unfold analyzeQuery
    by_cases hi : issueOnlyMatch question = true
    · rw [hi]
      simp
    · have hi' : issueOnlyMatch question = false := by
        cases hio : issueOnlyMatch question
        · rfl
        · exact absurd hio hi
      rw [hi'] at h ⊢
      simp only [Bool.not_false, Bool.true_and] at h
      rw [h]
      simp
  · intro h
    by_cases hi : issueOnlyMatch question = true
    · exact absurd (by unfold analyzeQuery; rw [hi]; exact if_pos rfl) h
    · have hi' : issueOnlyMatch question = false := by
        cases hio : issueOnlyMatch question
        · rfl
        · exact absurd hio hi
      refine ⟨hi', ?_⟩
      cases hc : needsCodeMatch question
      · exact absurd (by unfold analyzeQuery; rw [hi', hc]; simp) h
      · rfl
  · unfold candidateFiles
    rw [List.length_take]
    exact Nat.min_le_left _ _
  · intro p hp
    unfold candidateFiles at hp
    have hp2 := List.mem_of_mem_take hp
    obtain ⟨f, hf, rfl⟩ := List.mem_map.mp hp2
    have hf2 := List.mem_filter.mp hf
    exact ⟨f, hf2.1, by simpa using hf2.2, rfl⟩

/-- C5, witness: the router theorem applied to the spec's example question
and a concrete snapshot. -/
theorem C5_router_witness :
    analyzeQuery ("What are good first issues?".toList) sampleEmptyIdx ModelResult.err =
      ⟨false, []⟩ :=
  ((C5_router ("What are good first issues?".toList) sampleEmptyIdx ModelResult.err).1
    (by rfl)).1

/-- C7 (confirmed): the routing-response parse is total and never aborts the
flow — when `JSON.parse` fails on the cleaned response, or parses `null` (so
the member access would throw), the decision is `needsFiles = false` with an
empty file list; when it parses but the `files` member is not an array the
file list is empty; and a failed model call during routing yields the same
no-files decision. -/
theorem C7_parse_fallback (s question : Str) (index : RepoIndex) :
    (jsonParse (cleanResponse s) = none → parseQueryAnalysis s = ⟨false, []⟩) ∧
    (jsonParse (cleanResponse s) = some Json.null → parseQueryAnalysis s = ⟨false, []⟩) ∧
    (∀ j, jsonParse (cleanResponse s) = some j →
      (∀ xs, jGet j ("files".toList) ≠ some (Json.arr xs)) →
      (parseQueryAnalysis s).files = []) ∧
    analyzeQuery question index ModelResult.err = ⟨false, []⟩ := by
  refine ⟨?_, ?_, ?_, ?_⟩
  · intro h
    unfold parseQueryAnalysis
    rw [h]
  · intro h
    unfold parseQueryAnalysis
    rw [h]
  · intro j hj hnoarr
    unfold parseQueryAnalysis
    rw [hj]
    cases j with
    | null => rfl
    | bool b =>
      show (match jGet (Json.bool b) ("files".toList) with
            | some (Json.arr xs) => xs
            | _ => []) = []
      rfl
    | num tok =>
      show (match jGet (Json.num tok) ("files".toList) with
            | some (Json.arr xs) => xs
            | _ => []) = []
      rfl
    | str t =>
      show (match jGet (Json.str t) ("files".toList) with
            | some (Json.arr xs) => xs
            | _ => []) = []
      rfl
    | arr xs =>
      show (match jGet (Json.arr xs) ("files".toList) with
            | some (Json.arr ys) => ys
            | _ => []) = []
      rfl
    | obj fields =>
      show (match jGet (Json.obj fields) ("files".toList) with
            | some (Json.arr ys) => ys
            | _ => []) = []
      cases hg : jGet (Json.obj fields) ("files".toList) with
      | none => rfl
      | some v =>
        cases v with
        | arr ys => exact absurd hg (hnoarr ys)
        | null => rfl
        | bool b => rfl
        | num tok => rfl
        | str t => rfl
        | obj fs => rfl
  · by_cases hi : issueOnlyMatch question = true
    · unfold analyzeQuery
      rw [hi]
      exact if_pos rfl
    · have hi' : issueOnlyMatch question = false := by
        cases hio : issueOnlyMatch question
        · rfl
        · exact absurd hio hi
      unfold analyzeQuery
      rw [hi']
      cases hc : needsCodeMatch question
      · simp
      · simp

/-- C7, witness: the fallback theorem applied to a concrete malformed
response string. -/
theorem C7_parse_fallback_witness :
    parseQueryAnalysis ("this is not json".toList) = ⟨false, []⟩ :=
  (C7_parse_fallback ("this is not json".toList) [] sampleEmptyIdx).1 (by rfl)

/-!
## `fetchFilesContent` (worker/tools.ts, lines 210–222)

Fetches at most the first five requested paths; each fetched body is
truncated to 6000 and entered into the result mapping, and a path whose
fetch/decode fails (or yields an empty, falsy string) is silently omitted.
The per-path fetch (`fetchFileContent`, network + base64 decode) is the
oracle argument. -/

/-- `paths.slice(0, 5)`: the paths actually attempted. -/
def attemptedPaths (paths : List Str) : List Str := paths.take 5

def fetchFilesContent (fetch : Str → Option Str) (paths : List Str) : List (Str × Str) :=
  (attemptedPaths paths).filterMap (fun path =>
    match fetch path with
    | some content =>
      if content.isEmpty then none else some (path, truncateText content 6000)
    | none => none)

theorem filterMap_congr_on {α β : Type} (f g : α → Option β) :
    ∀ l : List α, (∀ p ∈ l, f p = g p) → l.filterMap f = l.filterMap g := by
  intro l
  induction l with
  | nil => intro _; rfl
  | cons x t ih =>
    intro h
    simp only [List.filterMap_cons]
    rw [h x (by simp), ih (fun p hp => h p (by simp [hp]))]

/-- C9 (confirmed): with more than five requested paths exactly the first
five, in order, are attempted (the result consults the fetcher only on
those); with five or fewer all are attempted; a path whose fetch or decode
fails is silently omitted from the result mapping, every mapping entry comes
from a successful fetch of an attempted path, and the operation is total —
no partial failure raises. -/
theorem C9_fetch_cap (fetch : Str → Option Str) (paths : List Str) :
    (paths.length ≤ 5 → attemptedPaths paths = paths) ∧
    (5 < paths.length → (attemptedPaths paths).length = 5) ∧
    attemptedPaths paths ++ paths.drop 5 = paths ∧
    (∀ f g : Str → Option Str, (∀ p ∈ attemptedPaths paths, f p = g p) →
      fetchFilesContent f paths = fetchFilesContent g paths) ∧
    (∀ p c, (p, c) ∈ fetchFilesContent fetch paths →
      p ∈ attemptedPaths paths ∧
      ∃ raw, fetch p = some raw ∧ raw ≠ [] ∧ c = truncateText raw 6000) ∧
    (∀ p, fetch p = none → ∀ c, (p, c) ∉ fetchFilesContent fetch paths) := by
  refine ⟨?_, ?_, ?_, ?_, ?_, ?_⟩
  · intro h
    exact List.take_of_length_le h
  · intro h
    unfold attemptedPaths
    rw [List.length_take]
    exact Nat.min_eq_left (Nat.le_of_lt h)
  · exact List.take_append_drop 5 paths
  · intro f g h
    unfold fetchFilesContent
    exact filterMap_congr_on _ _ (attemptedPaths paths) (fun p hp => by rw [h p hp])
  · intro p c hmem
    unfold fetchFilesContent at hmem
    obtain ⟨a, ha, hfa⟩ := List.mem_filterMap.mp hmem
    cases hf : fetch a with
    | none =>
      rw [hf] at hfa
      exact absurd ((rfl : (none : Option (Str × Str)) = none) ▸ hfa) (by simp)
    | some raw =>
      rw [hf] at hfa
      have hfa' : (if raw.isEmpty then none
          else some (a, truncateText raw 6000)) = some (p, c) := hfa
      by_cases hr : raw.isEmpty = true
      · rw [if_pos hr] at hfa'; cases hfa'
      · rw [if_neg hr] at hfa'
        have hinj := Option.some.inj hfa'
        have hpa : a = p := congrArg Prod.fst hinj
        have hc : truncateText raw 6000 = c := congrArg Prod.snd hinj
        subst hpa
        refine ⟨ha, raw, hf, ?_, hc.symm⟩
        intro hnil
        rw [hnil] at hr
        exact hr rfl
  · intro p hnone c hmem
    unfold fetchFilesContent at hmem
    obtain ⟨a, ha, hfa⟩ := List.mem_filterMap.mp hmem
    cases hf : fetch a with
    | none =>
      rw [hf] at hfa
      exact absurd ((rfl : (none : Option (Str × Str)) = none) ▸ hfa) (by simp)
    | some raw =>
      rw [hf] at hfa
      have hfa' : (if raw.isEmpty then none
          else some (a, truncateText raw 6000)) = some (p, c) := hfa
      by_cases hr : raw.isEmpty = true
      · rw [if_pos hr] at hfa'; cases hfa'
      · rw [if_neg hr] at hfa'
        have hap : a = p := congrArg Prod.fst (Option.some.inj hfa')
        rw [hap] at hf
        rw [hf] at hnone
        cases hnone

/-- C9, witness: the cap theorem applied to a concrete six-path request. -/
theorem C9_fetch_cap_witness :
    (attemptedPaths ["a".toList, "b".toList, "c".toList, "d".toList,
      "e".toList, "f".toList]).length = 5 :=
  ((C9_fetch_cap (fun _ => none) ["a".toList, "b".toList, "c".toList, "d".toList,
      "e".toList, "f".toList]).2.1) (by decide)

/-!
## Snapshot cache and orchestrator (worker/index.ts)

The KV store (`env.CACHE_KV`) is external; it is modelled as at most one
entry per key — the handlers below all use the single key `repo:${url}` — with
exact TTL expiry: `get` returns the value while `now < putTime + ttl`.  Time
is in seconds; a snapshot is built and put at the same instant, so
`putTime = snapshot.indexedAt` in every reachable state (proved below as the
put-marker fact).  The two model calls, the per-path file fetch, and the
seven sub-fetches of a rebuild are oracle arguments.
-/

structure CacheState where
  entry : Option (Nat × RepoIndex)
deriving DecidableEq, Repr

def CACHE_TTL : Nat := 1800

def kvGet (c : CacheState) (now : Nat) : Option RepoIndex :=
  match c.entry with
  | some (t, snap) => if now < t + CACHE_TTL then some snap else none
  | none => none

def kvPut (now : Nat) (idx : RepoIndex) : CacheState := ⟨some (now, idx)⟩

/-- `goodFirstCount` of `handleRepoIndexing` (labels containing
`"good first"` only — unlike `buildContext`, no `"beginner"` here). -/
def goodFirstCount (idx : RepoIndex) : Nat :=
  (idx.issues.filter (fun i => i.labels.any (fun l =>
    containsSub ("good first".toList) (lowerStr l)))).length

def helpWantedCount (idx : RepoIndex) : Nat :=
  (idx.issues.filter (fun i => i.labels.any (fun l =>
    containsSub ("help wanted".toList) (lowerStr l)))).length

structure IndexStats where
  name : Str
  fullName : Str
  description : Option Str
  language : Option Str
  stars : Nat
  forks : Nat
  openIssues : Nat
  filesIndexed : Nat
  recentIssuesLoaded : Nat
  recentPRsLoaded : Nat
  goodFirstIssues : Option Nat
  helpWantedIssues : Option Nat
  hasReadme : Bool
  hasContributing : Bool
  cached : Bool
  indexedAt : Nat
deriving DecidableEq, Repr

def mkStats (idx : RepoIndex) (cached : Bool) : IndexStats :=
  { name := idx.name, fullName := idx.fullName, description := idx.description,
    language := idx.language, stars := idx.stars, forks := idx.forks,
    openIssues := idx.openIssuesCount, filesIndexed := idx.fileTree.length,
    recentIssuesLoaded := idx.issues.length,
    recentPRsLoaded := idx.pullRequests.length,
    goodFirstIssues := if goodFirstCount idx > 0 then some (goodFirstCount idx) else none,
    helpWantedIssues := if helpWantedCount idx > 0 then some (helpWantedCount idx) else none,
    hasReadme := !(optFalsy idx.readme), hasContributing := !(optFalsy idx.contributing),
    cached := cached, indexedAt := idx.indexedAt }

structure IndexStep where
  success : Bool
  message : Str
  stats : Option IndexStats
  cache : CacheState
  rebuilds : Nat
deriving DecidableEq, Repr

inductive IndexOutcome where
  | thrown (cache : CacheState) (rebuilds : Nat)
  | ok (step : IndexStep)
deriving DecidableEq, Repr

def iRebuilds : IndexOutcome → Nat
  | IndexOutcome.thrown _ n => n
  | IndexOutcome.ok step => step.rebuilds

def iCache : IndexOutcome → CacheState
  | IndexOutcome.thrown c _ => c
  | IndexOutcome.ok step => step.cache

def failIndexMsg : Str :=
  "Failed to index repository. Check if the URL is correct and the repository is public.".toList

/-- The rebuild path of `handleRepoIndexing` (worker/index.ts lines 128–168):
build, and on success `put` with the backstop TTL. -/
def rebuildIndexPath (now : Nat) (c : CacheState) (url : Str) (d : FetchData) : IndexOutcome :=
  match indexRepository url d now with
  | BuildResult.thrown => IndexOutcome.thrown c 1
  | BuildResult.failed =>
    IndexOutcome.ok { success := false, message := failIndexMsg, stats := none,
                      cache := c, rebuilds := 1 }
  | BuildResult.built idx =>
    IndexOutcome.ok { success := true, message := "Repository indexed successfully".toList,
                      stats := some (mkStats idx false), cache := kvPut now idx, rebuilds := 1 }

/-- `handleRepoIndexing` (worker/index.ts lines 82–169): a cached snapshot
younger than `CACHE_TTL` (by its freshness marker) is served without any
rebuild; otherwise the rebuild path runs. -/
def handleRepoIndexing (now : Nat) (c : CacheState) (url : Str) (d : FetchData) : IndexOutcome :=
  match kvGet c now with
  | some existing =>
    if now - existing.indexedAt < CACHE_TTL then
      IndexOutcome.ok { success := true, message := "Repository already indexed".toList,
                        stats := some (mkStats existing true), cache := c, rebuilds := 0 }
    else rebuildIndexPath now c url d
  | none => rebuildIndexPath now c url d

structure ThinkingStep where
  step : Str
  detail : Str
  status : Str
deriving DecidableEq, Repr

def stepLoading : ThinkingStep :=
  ⟨"Loading repository data".toList, "Checking cached index".toList, "done".toList⟩

def stepRebuilding : ThinkingStep :=
  ⟨"Rebuilding index".toList, "Cache expired, fetching fresh data".toList, "done".toList⟩

def stepError : ThinkingStep :=
  ⟨"Error".toList, "Failed to access repository".toList, "done".toList⟩

def stepLoaded (idx : RepoIndex) : ThinkingStep :=
  ⟨"Repository loaded".toList,
   strN idx.fileTree.length ++ " files, ".toList ++ strN idx.issues.length ++
     " issues indexed".toList, "done".toList⟩

def stepAnalyzing : ThinkingStep :=
  ⟨"Analyzing question".toList, "Determining what data is needed".toList, "done".toList⟩

def stepFetching (files : List Str) : ThinkingStep :=
  ⟨"Fetching source files".toList,
   List.intercalate (", ".toList) (files.map lastSeg), "done".toList⟩

def stepFilesLoaded (names : List Str) : ThinkingStep :=
  ⟨"Files loaded".toList,
   List.intercalate (", ".toList) (names.map (fun f => "`".toList ++ f ++ "`".toList)),
   "done".toList⟩

def stepUsingIndexed : ThinkingStep :=
  ⟨"Using indexed data".toList, "No additional file fetching needed".toList, "done".toList⟩

def stepBuilding : ThinkingStep :=
  ⟨"Building context".toList, "Preparing repository context for analysis".toList,
   "done".toList⟩

def stepGenerating : ThinkingStep :=
  ⟨"Generating response".toList, "Analyzing with AI".toList, "done".toList⟩

def cantAccessMsg : Str :=
  "I couldn't access this repository. Please make sure the URL is correct and the repository is public, then try indexing it again.".toList

def apologyMsg : Str :=
  "I apologize, but I couldn't generate a response. Please try rephrasing your question.".toList

def llmErrMsg : Str :=
  "An error occurred while generating the response. Please try again.".toList

/-- `generateAnswer` (worker/index.ts lines 326–349): empty extracted text is
falsy and becomes the apology; a thrown model call becomes the error
string.  The question and context only shape the prompt of the external
call. -/
def generateAnswer (question context : Str) (mr : ModelResult) : Str :=
  match question, context, mr with
  | _, _, ModelResult.ok t => if t.isEmpty then apologyMsg else t
  | _, _, ModelResult.err => llmErrMsg

/-- `shouldFetchFiles.files.map(f => f.split('/').pop())` throws on a
non-string array element; extraction succeeds only when all elements are
strings. -/
def filesAsStrings : List Json → Option (List Str)
  | [] => some []
  | Json.str s :: t => (filesAsStrings t).map (fun l => s :: l)
  | _ :: _ => none

structure QAnswer where
  answer : Str
  thinking : List ThinkingStep
  cache : CacheState
  rebuilds : Nat
deriving DecidableEq, Repr

inductive QOutcome where
  | thrown (cache : CacheState) (rebuilds : Nat)
  | ok (r : QAnswer)
deriving DecidableEq, Repr

def qRebuilds : QOutcome → Nat
  | QOutcome.thrown _ n => n
  | QOutcome.ok r => r.rebuilds

def qCache : QOutcome → CacheState
  | QOutcome.thrown c _ => c
  | QOutcome.ok r => r.cache

/-- Tail of `handleQuestion` after routing: build context, generate. -/
def finishAnswer (question : Str) (idx : RepoIndex) (additionalFiles : List (Str × Str))
    (thinking : List ThinkingStep) (cache : CacheState) (rebuilds : Nat)
    (genModel : ModelResult) : QOutcome :=
  QOutcome.ok
    ⟨generateAnswer question (buildContext idx (some additionalFiles)) genModel,
     (thinking ++ [stepBuilding]) ++ [stepGenerating], cache, rebuilds⟩

/-- `handleQuestion` after the snapshot is available (worker/index.ts lines
203–257): loaded and analyzing steps, routing, optional file fetch, then the
answer.  An unparseable repository URL throws at line 209. -/
def afterLoad (url question : Str) (idx : RepoIndex) (thinking : List ThinkingStep)
    (cache : CacheState) (rebuilds : Nat) (routeModel : ModelResult)
    (fileFetch : Str → Option Str) (genModel : ModelResult) : QOutcome :=
  match parseGitHubUrl url with
  | none => QOutcome.thrown cache rebuilds
  | some _ =>
    if (analyzeQuery question idx routeModel).needsFiles &&
        !(analyzeQuery question idx routeModel).files.isEmpty then
      match filesAsStrings (analyzeQuery question idx routeModel).files with
      | none => QOutcome.thrown cache rebuilds
      | some fpaths =>
        finishAnswer question idx (fetchFilesContent fileFetch fpaths)
          (((thinking ++ [stepLoaded idx]) ++ [stepAnalyzing]) ++ [stepFetching fpaths] ++
            (if (fetchFilesContent fileFetch fpaths).length > 0 then
              [stepFilesLoaded ((fetchFilesContent fileFetch fpaths).map (fun pc => pc.1))]
             else []))
          cache rebuilds genModel
    else
      finishAnswer question idx []
        (((thinking ++ [stepLoaded idx]) ++ [stepAnalyzing]) ++ [stepUsingIndexed])
        cache rebuilds genModel

/-- `handleQuestion` (worker/index.ts lines 177–258).  On a cache miss the
rebuild runs; if it fails, the handler returns the access-failure answer with
a fresh single-entry trace (the accumulated steps are discarded). -/
def handleQuestion (now : Nat) (c : CacheState) (url question : Str) (d : FetchData)
    (routeModel : ModelResult) (fileFetch : Str → Option Str)
    (genModel : ModelResult) : QOutcome :=
  match kvGet c now with
  | some idx => afterLoad url question idx [stepLoading] c 0 routeModel fileFetch genModel
  | none =>
    match indexRepository url d now with
    | BuildResult.thrown => QOutcome.thrown c 1
    | BuildResult.failed => QOutcome.ok ⟨cantAccessMsg, [stepError], c, 1⟩
    | BuildResult.built idx =>
      afterLoad url question idx ([stepLoading] ++ [stepRebuilding]) (kvPut now idx) 1
        routeModel fileFetch genModel

/-! ### Orchestrator case lemmas -/

theorem afterLoad_rebuilds (url question : Str) (idx : RepoIndex)
    (thinking : List ThinkingStep) (cache : CacheState) (rebuilds : Nat)
    (rm : ModelResult) (ff : Str → Option Str) (gm : ModelResult) :
    qRebuilds (afterLoad url question idx thinking cache rebuilds rm ff gm) = rebuilds := by
  unfold afterLoad finishAnswer
  split
  · rfl
  · split
    · split
      · rfl
      · rfl
    · rfl

theorem afterLoad_cache (url question : Str) (idx : RepoIndex)
    (thinking : List ThinkingStep) (cache : CacheState) (rebuilds : Nat)
    (rm : ModelResult) (ff : Str → Option Str) (gm : ModelResult) :
    qCache (afterLoad url question idx thinking cache rebuilds rm ff gm) = cache := by
  unfold afterLoad finishAnswer
  split
  · rfl
  · split
    · split
      · rfl
      · rfl
    · rfl

theorem afterLoad_trace (url question : Str) (idx : RepoIndex)
    (thinking : List ThinkingStep) (cache : CacheState) (rebuilds : Nat)
    (rm : ModelResult) (ff : Str → Option Str) (gm : ModelResult) (r : QAnswer)
    (h : afterLoad url question idx thinking cache rebuilds rm ff gm = QOutcome.ok r) :
    ∃ mid : List ThinkingStep,
      r.thinking = thinking ++ [stepLoaded idx] ++ [stepAnalyzing] ++ mid ++
        [stepBuilding] ++ [stepGenerating] ∧
      (mid.map (fun t => t.step) = ["Fetching source files".toList] ∨
       mid.map (fun t => t.step) =
         ["Fetching source files".toList, "Files loaded".toList] ∨
       mid.map (fun t => t.step) = ["Using indexed data".toList]) := by
  unfold afterLoad finishAnswer at h
  revert h
  split
  · intro h; cases h
  · split
    · split
      · intro h; cases h
      · rename_i fpaths heq
        intro h
        cases h
        by_cases hl : (fetchFilesContent ff fpaths).length > 0
        · refine ⟨[stepFetching fpaths] ++
            [stepFilesLoaded ((fetchFilesContent ff fpaths).map (fun pc => pc.1))], ?_, ?_⟩
          · rw [if_pos hl]
            simp [List.append_assoc]
          · right; left
            simp [stepFetching, stepFilesLoaded]
        · refine ⟨[stepFetching fpaths], ?_, ?_⟩
          · rw [if_neg hl]
            simp [List.append_assoc]
          · left
            simp [stepFetching]
    · intro h
      cases h
      refine ⟨[stepUsingIndexed], ?_, ?_⟩
      · simp [List.append_assoc]
      · right; right
        simp [stepUsingIndexed]

theorem handleQuestion_hit (now : Nat) (c : CacheState) (url question : Str)
    (d : FetchData) (rm : ModelResult) (ff : Str → Option Str) (gm : ModelResult)
    (idx : RepoIndex) (h : kvGet c now = some idx) :
    handleQuestion now c url question d rm ff gm =
      afterLoad url question idx [stepLoading] c 0 rm ff gm := by
  unfold handleQuestion
  rw [h]

theorem handleQuestion_miss_built (now : Nat) (c : CacheState) (url question : Str)
    (d : FetchData) (rm : ModelResult) (ff : Str → Option Str) (gm : ModelResult)
    (idx : RepoIndex) (h1 : kvGet c now = none)
    (h2 : indexRepository url d now = BuildResult.built idx) :
    handleQuestion now c url question d rm ff gm =
      afterLoad url question idx ([stepLoading] ++ [stepRebuilding]) (kvPut now idx) 1
        rm ff gm := by
  unfold handleQuestion
  rw [h1, h2]

theorem handleQuestion_miss_failed (now : Nat) (c : CacheState) (url question : Str)
    (d : FetchData) (rm : ModelResult) (ff : Str → Option Str) (gm : ModelResult)
    (h1 : kvGet c now = none) (h2 : indexRepository url d now = BuildResult.failed) :
    handleQuestion now c url question d rm ff gm =
      QOutcome.ok ⟨cantAccessMsg, [stepError], c, 1⟩ := by
  unfold handleQuestion
  rw [h1, h2]

theorem handleQuestion_miss_thrown (now : Nat) (c : CacheState) (url question : Str)
    (d : FetchData) (rm : ModelResult) (ff : Str → Option Str) (gm : ModelResult)
    (h1 : kvGet c now = none) (h2 : indexRepository url d now = BuildResult.thrown) :
    handleQuestion now c url question d rm ff gm = QOutcome.thrown c 1 := by
  unfold handleQuestion
  rw [h1, h2]

theorem handleRepoIndexing_hit_fresh (now : Nat) (c : CacheState) (url : Str)
    (d : FetchData) (existing : RepoIndex) (h : kvGet c now = some existing)
    (hf : now - existing.indexedAt < CACHE_TTL) :
    handleRepoIndexing now c url d =
      IndexOutcome.ok { success := true, message := "Repository already indexed".toList,
                        stats := some (mkStats existing true), cache := c, rebuilds := 0 } := by
  unfold handleRepoIndexing
  rw [h]
  exact if_pos hf

theorem handleRepoIndexing_hit_stale (now : Nat) (c : CacheState) (url : Str)
    (d : FetchData) (existing : RepoIndex) (h : kvGet c now = some existing)
    (hf : ¬ (now - existing.indexedAt < CACHE_TTL)) :
    handleRepoIndexing now c url d = rebuildIndexPath now c url d := by
  unfold handleRepoIndexing
  rw [h]
  exact if_neg hf

theorem handleRepoIndexing_miss (now : Nat) (c : CacheState) (url : Str)
    (d : FetchData) (h : kvGet c now = none) :
    handleRepoIndexing now c url d = rebuildIndexPath now c url d := by
  unfold handleRepoIndexing
  rw [h]

theorem rebuildIndexPath_rebuilds (now : Nat) (c : CacheState) (url : Str) (d : FetchData) :
    iRebuilds (rebuildIndexPath now c url d) = 1 := by
  unfold rebuildIndexPath
  split
  · rfl
  · rfl
  · rfl

theorem rebuildIndexPath_cache (now : Nat) (c : CacheState) (url : Str) (d : FetchData) :
    iCache (rebuildIndexPath now c url d) = c ∨
    ∃ idx, indexRepository url d now = BuildResult.built idx ∧
      iCache (rebuildIndexPath now c url d) = kvPut now idx ∧ idx.indexedAt = now := by
  unfold rebuildIndexPath
  cases hb : indexRepository url d now with
  | thrown => left; rfl
  | failed => left; rfl
  | built idx =>
    right
    refine ⟨idx, rfl, rfl, ?_⟩
    obtain ⟨m, _, _, _, _, _, hn⟩ := indexRepository_built url d now idx hb
    exact hn

def emptyCache : CacheState := ⟨none⟩

def sampleFailFetch : FetchData :=
  { metadata := none, readme := none, contributing := none, fileTree := [],
    issuesData := none, prData := none, languages := [] }

def sampleFetch : FetchData :=
  { metadata := some sampleMeta, readme := none, contributing := none, fileTree := [],
    issuesData := none, prData := none, languages := [] }

/-- C6 (confirmed): when the mandatory metadata fetch fails, the build
returns absent, `handleRepoIndexing` surfaces the could-not-access failure
message with no stats, `handleQuestion` surfaces the user-facing
could-not-access answer, and in both handlers the cache is exactly the one
from before the attempt — no entry is written. -/
theorem C6_metadata_failure (now : Nat) (c : CacheState) (url question : Str)
    (d : FetchData) (rm : ModelResult) (ff : Str → Option Str) (gm : ModelResult)
    (hmeta : d.metadata = none) (hparse : (parseGitHubUrl url).isSome = true)
    (hmiss : kvGet c now = none) :
    indexRepository url d now = BuildResult.failed ∧
    handleRepoIndexing now c url d =
      IndexOutcome.ok { success := false, message := failIndexMsg, stats := none,
                        cache := c, rebuilds := 1 } ∧
    handleQuestion now c url question d rm ff gm =
      QOutcome.ok ⟨cantAccessMsg, [stepError], c, 1⟩ := by
  have hbuild : indexRepository url d now = BuildResult.failed := by
    unfold indexRepository
    cases hp : parseGitHubUrl url with
    | none => rw [hp] at hparse; cases hparse
    | some pr =>
      show (match d.metadata with
            | none => BuildResult.failed
            | some m => BuildResult.built _) = BuildResult.failed
      rw [hmeta]
  refine ⟨hbuild, ?_, ?_⟩
  · rw [handleRepoIndexing_miss now c url d hmiss]
    unfold rebuildIndexPath
    rw [hbuild]
  · exact handleQuestion_miss_failed now c url question d rm ff gm hmiss hbuild

/-- C6, witness: the failure theorem instantiated at a concrete URL, empty
cache, and fetch results whose metadata is absent. -/
theorem C6_metadata_failure_witness :
    handleQuestion 0 emptyCache sampleUrl [] sampleFailFetch ModelResult.err
      (fun _ => none) ModelResult.err =
      QOutcome.ok ⟨cantAccessMsg, [stepError], emptyCache, 1⟩ :=
  (C6_metadata_failure 0 emptyCache sampleUrl [] sampleFailFetch ModelResult.err
    (fun _ => none) ModelResult.err rfl (by decide) rfl).2.2

/-- C4 (confirmed): for a snapshot built and cached at time `T` (so the
entry's put time equals its freshness marker), a request at `T+1799` is
served from the cache by both cache readers with no rebuild and an unchanged
cache; a request at `T+1801` performs exactly one rebuild followed by a put
that stores the fresh snapshot under the new time, refreshing both snapshot
and backstop TTL; and for every `now`, each reader serves from cache exactly
when `now − freshnessMarker < 1800` — the freshness policy holds for every
caller (the handler writes only entries whose put time equals the stored
marker, so the presence check of `handleQuestion` coincides with the marker
check under the store's exact TTL expiry). -/
theorem C4_cache_policy (T : Nat) (snap nb : RepoIndex) (url question : Str)
    (d : FetchData) (rm : ModelResult) (ff : Str → Option Str) (gm : ModelResult)
    (c : CacheState) (hc : c = ⟨some (T, snap)⟩) (hmark : snap.indexedAt = T)
    (hbuilt : indexRepository url d (T + 1801) = BuildResult.built nb) :
    qRebuilds (handleQuestion (T + 1799) c url question d rm ff gm) = 0 ∧
    qCache (handleQuestion (T + 1799) c url question d rm ff gm) = c ∧
    iRebuilds (handleRepoIndexing (T + 1799) c url d) = 0 ∧
    iCache (handleRepoIndexing (T + 1799) c url d) = c ∧
    qRebuilds (handleQuestion (T + 1801) c url question d rm ff gm) = 1 ∧
    qCache (handleQuestion (T + 1801) c url question d rm ff gm) = kvPut (T + 1801) nb ∧
    iRebuilds (handleRepoIndexing (T + 1801) c url d) = 1 ∧
    iCache (handleRepoIndexing (T + 1801) c url d) = kvPut (T + 1801) nb ∧
    (∀ now, qRebuilds (handleQuestion now c url question d rm ff gm) = 0 ↔
      now - T < CACHE_TTL) ∧
    (∀ now, iRebuilds (handleRepoIndexing now c url d) = 0 ↔ now - T < CACHE_TTL) ∧
    (∀ now, iCache (handleRepoIndexing now c url d) = c ∨
      ∃ idx, iCache (handleRepoIndexing now c url d) = kvPut now idx ∧
        idx.indexedAt = now) := by
  subst hc
  have hget : ∀ now : Nat, kvGet ⟨some (T, snap)⟩ now =
      if now < T + CACHE_TTL then some snap else none := fun _ => rfl
  have hhit : ∀ now : Nat, now < T + CACHE_TTL →
      kvGet (⟨some (T, snap)⟩ : CacheState) now = some snap := by
    intro now h
    rw [hget now, if_pos h]
  have hmissg : ∀ now : Nat, ¬ (now < T + CACHE_TTL) →
      kvGet (⟨some (T, snap)⟩ : CacheState) now = none := by
    intro now h
    rw [hget now, if_neg h]
  have h1799 : (T + 1799) < T + CACHE_TTL := by unfold CACHE_TTL; omega
  have h1801 : ¬ ((T + 1801) < T + CACHE_TTL) := by unfold CACHE_TTL; omega
  have hqr : ∀ now : Nat, now < T + CACHE_TTL →
      qRebuilds (handleQuestion now (⟨some (T, snap)⟩ : CacheState) url question d rm ff gm)
        = 0 ∧
      qCache (handleQuestion now (⟨some (T, snap)⟩ : CacheState) url question d rm ff gm)
        = ⟨some (T, snap)⟩ := by
    intro now h
    rw [handleQuestion_hit now _ url question d rm ff gm snap (hhit now h)]
    exact ⟨afterLoad_rebuilds _ _ _ _ _ _ _ _ _, afterLoad_cache _ _ _ _ _ _ _ _ _⟩
  have hqr' : ∀ now : Nat, ¬ (now < T + CACHE_TTL) →
      qRebuilds (handleQuestion now (⟨some (T, snap)⟩ : CacheState) url question d rm ff gm)
        = 1 := by
    intro now h
    cases hb : indexRepository url d now with
    | thrown =>
      rw [handleQuestion_miss_thrown now _ url question d rm ff gm (hmissg now h) hb]
      rfl
    | failed =>
      rw [handleQuestion_miss_failed now _ url question d rm ff gm (hmissg now h) hb]
      rfl
    | built idx =>
      rw [handleQuestion_miss_built now _ url question d rm ff gm idx (hmissg now h) hb]
      exact afterLoad_rebuilds _ _ _ _ _ _ _ _ _
  have hir : ∀ now : Nat, now < T + CACHE_TTL →
      handleRepoIndexing now (⟨some (T, snap)⟩ : CacheState) url d =
        IndexOutcome.ok { success := true,
                          message := "Repository already indexed".toList,
                          stats := some (mkStats snap true),
                          cache := ⟨some (T, snap)⟩, rebuilds := 0 } := by
    intro now h
    refine handleRepoIndexing_hit_fresh now _ url d snap (hhit now h) ?_
    rw [hmark]
    unfold CACHE_TTL
    unfold CACHE_TTL at h
    omega
  have hir' : ∀ now : Nat, ¬ (now < T + CACHE_TTL) →
      handleRepoIndexing now (⟨some (T, snap)⟩ : CacheState) url d =
        rebuildIndexPath now (⟨some (T, snap)⟩ : CacheState) url d :=
    fun now h => handleRepoIndexing_miss now _ url d (hmissg now h)
  have hsub : ∀ now : Nat, (now - T < CACHE_TTL) ↔ (now < T + CACHE_TTL) := by
    intro now
    omega
  refine ⟨(hqr _ h1799).1, (hqr _ h1799).2, ?_, ?_, ?_, ?_, ?_, ?_, ?_, ?_, ?_⟩
  · rw [hir _ h1799]
    rfl
  · rw [hir _ h1799]
    rfl
  · rw [handleQuestion_miss_built _ _ url question d rm ff gm nb (hmissg _ h1801) hbuilt]
    exact afterLoad_rebuilds _ _ _ _ _ _ _ _ _
  · rw [handleQuestion_miss_built _ _ url question d rm ff gm nb (hmissg _ h1801) hbuilt]
    exact afterLoad_cache _ _ _ _ _ _ _ _ _
  · rw [hir' _ h1801]
    exact rebuildIndexPath_rebuilds _ _ _ _
  · rw [hir' _ h1801]
    unfold rebuildIndexPath
    rw [hbuilt]
    rfl
  · intro now
    rw [hsub now]
    by_cases h : now < T + CACHE_TTL
    · rw [(hqr now h).1]
      exact iff_of_true rfl h
    · rw [hqr' now h]
      exact iff_of_false (by omega) h
  · intro now
    rw [hsub now]
    by_cases h : now < T + CACHE_TTL
    · rw [hir now h]
      exact iff_of_true rfl h
    · rw [hir' now h]
      rw [rebuildIndexPath_rebuilds _ _ _ _]
      exact iff_of_false (by omega) h
  · intro now
    by_cases h : now < T + CACHE_TTL
    · rw [hir now h]
      left
      rfl
    · rw [hir' now h]
      rcases rebuildIndexPath_cache now (⟨some (T, snap)⟩ : CacheState) url d with hcc | ⟨idx, _, hcc, hn⟩
      · left; exact hcc
      · right; exact ⟨idx, hcc, hn⟩

/-- C4, witness: the cache-policy theorem instantiated at `T = 0` with a
concrete snapshot, URL and rebuild data. -/
theorem C4_cache_policy_witness :
    qRebuilds (handleQuestion 1799 (⟨some (0, sampleEmptyIdx)⟩ : CacheState) sampleUrl []
      sampleFetch ModelResult.err (fun _ => none) ModelResult.err) = 0 ∧
    iRebuilds (handleRepoIndexing 1801 (⟨some (0, sampleEmptyIdx)⟩ : CacheState) sampleUrl
      sampleFetch) = 1 := by
  have hb : ∃ nb, indexRepository sampleUrl sampleFetch 1801 = BuildResult.built nb := by
    unfold indexRepository
    rw [show parseGitHubUrl sampleUrl =
      some ("kernelism".toList, "cf_ai_github_assistant".toList) from by decide]
    exact ⟨_, rfl⟩
  obtain ⟨nb, hnb⟩ := hb
  have h := C4_cache_policy 0 sampleEmptyIdx nb sampleUrl [] sampleFetch ModelResult.err
    (fun _ => none) ModelResult.err (⟨some (0, sampleEmptyIdx)⟩ : CacheState) rfl rfl
    (by simpa using hnb)
  exact ⟨by simpa using h.1, by simpa using h.2.2.2.2.2.2.1⟩

/-- The stage labels in the orchestrator's fixed order. -/
def canonicalStepNames : List Str :=
  ["Loading repository data".toList, "Rebuilding index".toList,
   "Repository loaded".toList, "Analyzing question".toList,
   "Fetching source files".toList, "Files loaded".toList,
   "Using indexed data".toList, "Building context".toList,
   "Generating response".toList]

/-- C8, counterexample: on a cache miss whose rebuild fails, the returned
trace is the fresh single `Error` entry — it does not begin with the entries
appended by the load-snapshot and rebuild stages, contradicting the claim. -/
theorem C8_counterexample :
    handleQuestion 0 emptyCache sampleUrl [] sampleFailFetch ModelResult.err
      (fun _ => none) ModelResult.err =
      QOutcome.ok ⟨cantAccessMsg, [stepError], emptyCache, 1⟩ ∧
    stepError.step ≠ stepLoading.step := by
  constructor
  · exact handleQuestion_miss_failed 0 emptyCache sampleUrl [] sampleFailFetch
      ModelResult.err (fun _ => none) ModelResult.err rfl (by decide)
  · decide

/-- C8 (amended): on every path except a failed rebuild the returned trace is
append-only in the fixed stage order — its stage labels form a subsequence of
the canonical order, it begins with the load-snapshot entry, and when a
rebuild ran its entry is present; but on a rebuild failure the handler
returns a fresh single `Error` entry instead of the accumulated trace, so the
failure trace does not begin with the load and rebuild entries. -/
theorem C8_amended (now : Nat) (c : CacheState) (url question : Str) (d : FetchData)
    (rm : ModelResult) (ff : Str → Option Str) (gm : ModelResult) (r : QAnswer)
    (h : handleQuestion now c url question d rm ff gm = QOutcome.ok r) :
    ((kvGet c now = none ∧ indexRepository url d now = BuildResult.failed) →
      r.thinking = [stepError]) ∧
    (¬ (kvGet c now = none ∧ indexRepository url d now = BuildResult.failed) →
      (r.thinking.map (fun t => t.step)).Sublist canonicalStepNames ∧
      r.thinking.head? = some stepLoading ∧
      (kvGet c now = none → stepRebuilding ∈ r.thinking)) := by
  cases hk : kvGet c now with
  | some idx =>
    rw [handleQuestion_hit now c url question d rm ff gm idx hk] at h
    obtain ⟨mid, htr, hm⟩ :=
      afterLoad_trace url question idx [stepLoading] c 0 rm ff gm r h
    constructor
    · rintro ⟨h1, _⟩
      cases h1
    · intro _
      refine ⟨?_, ?_, ?_⟩
      · rw [htr]
        simp only [List.map_append, List.map_cons, List.map_nil,
          stepLoading, stepLoaded, stepAnalyzing, stepBuilding, stepGenerating]
        rcases hm with hm | hm | hm <;> rw [hm] <;> decide
      · rw [htr]
        simp
      · intro hnone
        cases hnone
  | none =>
    cases hb : indexRepository url d now with
    | thrown =>
      rw [handleQuestion_miss_thrown now c url question d rm ff gm hk hb] at h
      cases h
    | failed =>
      rw [handleQuestion_miss_failed now c url question d rm ff gm hk hb] at h
      cases h
      constructor
      · intro _
        rfl
      · intro hn
        exact absurd ⟨rfl, rfl⟩ hn
    | built idx =>
      rw [handleQuestion_miss_built now c url question d rm ff gm idx hk hb] at h
      obtain ⟨mid, htr, hm⟩ :=
        afterLoad_trace url question idx ([stepLoading] ++ [stepRebuilding]) (kvPut now idx)
          1 rm ff gm r h
      constructor
      · rintro ⟨_, h2⟩
        cases h2
      · intro _
        refine ⟨?_, ?_, ?_⟩
        · rw [htr]
          simp only [List.map_append, List.map_cons, List.map_nil,
            stepLoading, stepRebuilding, stepLoaded, stepAnalyzing, stepBuilding,
            stepGenerating]
          rcases hm with hm | hm | hm <;> rw [hm] <;> decide
        · rw [htr]
          simp
        · intro _
          rw [htr]
          simp

/-- C8, witness: the amended trace theorem applied to a concrete cache-hit
run, whose trace labels follow the canonical order. -/
theorem C8_amended_witness :
    ∃ r : QAnswer,
      handleQuestion 0 (⟨some (0, sampleEmptyIdx)⟩ : CacheState) sampleUrl []
        sampleFailFetch ModelResult.err (fun _ => none) ModelResult.err =
        QOutcome.ok r ∧
      (r.thinking.map (fun t => t.step)).Sublist canonicalStepNames := by
  have hex : ∃ r : QAnswer,
      handleQuestion 0 (⟨some (0, sampleEmptyIdx)⟩ : CacheState) sampleUrl []
        sampleFailFetch ModelResult.err (fun _ => none) ModelResult.err =
        QOutcome.ok r := by
    rw [handleQuestion_hit 0 (⟨some (0, sampleEmptyIdx)⟩ : CacheState) sampleUrl []
      sampleFailFetch ModelResult.err (fun _ => none) ModelResult.err sampleEmptyIdx
      (by decide)]
    unfold afterLoad finishAnswer
    rw [show parseGitHubUrl sampleUrl =
      some ("kernelism".toList, "cf_ai_github_assistant".toList) from by decide]
    exact ⟨_, rfl⟩
  obtain ⟨r, hr⟩ := hex
  refine ⟨r, hr, ?_⟩
  have h := C8_amended 0 (⟨some (0, sampleEmptyIdx)⟩ : CacheState) sampleUrl []
    sampleFailFetch ModelResult.err (fun _ => none) ModelResult.err r hr
  exact (h.2 (by rintro ⟨h1, _⟩; cases h1)).1
